import Mathlib

/-!
Verification of the table-structure analysis subsystem of the docx-mcp
repository (`src/docx_mcp`), shallowly embedded in Lean 4.

The embedding follows the Python source:
  * `models/table_analysis.py` : `analyze_cell_merge`, `extract_cell_formatting`,
    `CellStyleAnalysis.to_dict`, `TableStructureAnalysis.to_dict`,
    `TableAnalysisResult.to_dict`;
  * `operations/tables/table_operations.py` : `analyze_table_structure`,
    `analyze_all_tables`, `set_cell_value`, `get_cell_value`,
    `delete_table_rows`;
  * `utils/validation.py` : `validate_table_index`, `validate_cell_position`,
    `sanitize_string`.

A cell of the underlying document-object library is modelled by the fields
the repository's code actually reads: the cell text, the paragraph/run tree
with its formatting attributes, and the low-level `tc` markup (grid-span
attribute, `tcPr` child with `shd`, `vAlign`, `tcBorders` and `vMerge`
elements).  Python `None` becomes `Option.none`; Python string truthiness
(`if s:`) becomes `s ≠ ""`; machine integers are `Int`/`Nat` (Python ints
are unbounded, so no modular wrap is needed).  The two places where the
Python code can raise inside its `try` blocks are modelled explicitly:
`int(grid_span)` failing on a non-numeric attribute, and the
`tc_borders.nsmap[None]` lookup raising `KeyError` when the element has no
default namespace; both bodies are written in `Except` and the enclosing
`try/except` becomes a `match` on the result.
-/

namespace DocxMcp

/-- The wordprocessingml namespace URI used by every namespaced lookup in
`table_analysis.py`. -/
def wNamespace : String :=
  "http://schemas.openxmlformats.org/wordprocessingml/2006/main"

/-- Python string truthiness (`if s:`): true iff the string is non-empty. -/
def pyTruthy (s : String) : Bool := s ≠ ""

/-- Python whitespace, as stripped by `str.strip()`. -/
def pyIsSpace (c : Char) : Bool :=
  c = ' ' ∨ c = '\t' ∨ c = '\n' ∨ c = '\r' ∨ c = '\x0b' ∨ c = '\x0c'

/-- Python `str.strip()` with no arguments: remove leading and trailing
whitespace. -/
def pyStrip (s : String) : String :=
  ((((s.toList.dropWhile pyIsSpace).reverse).dropWhile pyIsSpace).reverse).asString

/-- Decimal digit run parser: `some` of the value when the list is a
non-empty run of ASCII digits, `none` otherwise. -/
def parseDigits : Nat → List Char → Option Nat
  | _, [] => none
  | acc, [c] => if c.isDigit then some (acc * 10 + (c.toNat - 48)) else none
  | acc, c :: cs =>
    if c.isDigit then parseDigits (acc * 10 + (c.toNat - 48)) cs else none

/-- Python `int(s)` on a decimal string, as used for `int(grid_span)`:
whitespace is stripped, an optional sign followed by decimal digits
parses, anything else raises `ValueError` (modelled as `none`; digit
grouping underscores are outside the modelled input space). -/
def pyInt (s : String) : Option Int :=
  match (pyStrip s).toList with
  | '-' :: rest => (parseDigits 0 rest).map (fun n => -(n : Int))
  | '+' :: rest => (parseDigits 0 rest).map (fun n => (n : Int))
  | cs => (parseDigits 0 cs).map (fun n => (n : Int))

/-- A run of a paragraph, restricted to the attributes
`extract_cell_formatting` reads (`run.font.name`, `run.font.size.pt`,
`run.font.color.rgb`, `run.bold`, `run.italic`, `run.underline`).  A `none`
formatting attribute models the library returning `None`. -/
structure Run where
  fontName : Option String
  fontSizePt : Option Nat
  fontColorRgb : Option String
  bold : Option Bool
  italic : Option Bool
  underline : Option Bool
deriving Repr, DecidableEq

/-- A paragraph: its alignment (the integer value of the library's alignment
enum, `None` when unset) and its runs. -/
structure Paragraph where
  alignment : Option Nat
  runs : List Run
deriving Repr, DecidableEq

/-- A border element inside `tcBorders`: its `val`, `sz` and `color`
attributes, each possibly absent. -/
structure Border where
  val : Option String
  sz : Option String
  color : Option String
deriving Repr, DecidableEq

/-- The `tcBorders` element.  `nsmapDefault` is the element's default
namespace mapping (`tc_borders.nsmap[None]`), absent when the element
declares no default namespace — in which case the Python lookup raises
`KeyError`.  The four side fields hold the side elements that live in the
`wNamespace` namespace; the Python `find` locates them only when
`nsmap[None]` equals `wNamespace`. -/
structure TcBorders where
  nsmapDefault : Option String
  top : Option Border
  bottom : Option Border
  left : Option Border
  right : Option Border
deriving Repr, DecidableEq

/-- The `tcPr` element of a cell.  `shd` is the shading element carrying its
`fill` attribute, `vAlign` the vertical-alignment element carrying its `val`
attribute, `vMerge` the vertical-merge element carrying its `val` attribute;
the outer `Option` is element presence, the inner one attribute presence. -/
structure TcPr where
  shd : Option (Option String)
  vAlign : Option (Option String)
  tcBorders : Option TcBorders
  vMerge : Option (Option String)
deriving Repr, DecidableEq

/-- The `tc` element of a cell: its `gridSpan` attribute (as read by
`tc_element.get('{w}gridSpan')`) and its `tcPr` child. -/
structure CellElement where
  gridSpanAttr : Option String
  tcPr : Option TcPr
deriving Repr, DecidableEq

/-- A table cell as seen through the library boundary: its text, its
paragraphs, and its underlying markup.  `element = none` models an object
for which `hasattr(cell, '_element')` is false. -/
structure Cell where
  text : String
  paragraphs : List Paragraph
  element : Option CellElement
deriving Repr, DecidableEq

/-- `MergeInfo` from `table_analysis.py`; `mergeType` holds the string value
of the `CellMergeType` enum member. -/
structure MergeInfo where
  mergeType : String
  startRow : Int
  endRow : Int
  startCol : Int
  endCol : Int
  spanRows : Int
  spanCols : Int
deriving Repr, DecidableEq

/-- The `v_merge` local variable of `analyze_cell_merge`: the `val`
attribute of the `vMerge` element found under the cell's `tcPr`, `none`
when the element chain or the attribute is missing. -/
def vMergeAttr (cell : Cell) : Option String :=
  ((cell.element.bind CellElement.tcPr).bind TcPr.vMerge).join

/-- The `span_cols` computation of `analyze_cell_merge`
(`int(grid_span) if grid_span else 1`): `Except.error` models the
`ValueError` raised when the attribute is present, truthy and non-numeric. -/
def gridSpanCols (el : CellElement) : Except Unit Int :=
  match el.gridSpanAttr with
  | none => .ok 1
  | some s =>
    if pyTruthy s then
      match pyInt s with
      | some n => .ok n
      | none => .error ()
    else .ok 1

/-- The body of `analyze_cell_merge`'s `try` block.  An `Except.error`
result models an exception escaping the body (only `int(grid_span)` can
raise here). -/
def mergeBody (cell : Cell) (rowIdx colIdx : Int) :
    Except Unit (Option MergeInfo) :=
  match cell.element with
  | none => .ok none
  | some el =>
    match gridSpanCols el with
    | .error e => .error e
    | .ok spanCols =>
      let vMerge := vMergeAttr cell
      let spanRows : Int := 1
      if spanCols > 1 ∨ vMerge ≠ none then
        let mergeType : String :=
          if spanCols > 1 ∧ vMerge ≠ none then "both"
          else if spanCols > 1 then "horizontal"
          else "vertical"
        .ok (some {
          mergeType := mergeType
          startRow := rowIdx
          endRow := rowIdx + spanRows - 1
          startCol := colIdx
          endCol := colIdx + spanCols - 1
          spanRows := spanRows
          spanCols := spanCols })
      else .ok none

/-- `analyze_cell_merge` from `models/table_analysis.py`: the `try` body
with `except Exception: pass` falling through to `return None`. -/
def analyze_cell_merge (cell : Cell) (rowIdx colIdx : Int) :
    Option MergeInfo :=
  match mergeBody cell rowIdx colIdx with
  | .ok r => r
  | .error _ => none

/-- The `alignment_map` dictionary of `extract_cell_formatting`, with
`dict.get` returning `None` for unmapped keys. -/
def alignmentMap (a : Nat) : Option String :=
  match a with
  | 0 => some "left"
  | 1 => some "center"
  | 2 => some "right"
  | 3 => some "justify"
  | _ => none

/-- The `formatting` dictionary built by `extract_cell_formatting`, with
its initial values. -/
structure Formatting where
  fontFamily : Option String := none
  fontSize : Option Nat := none
  fontColor : Option String := none
  isBold : Bool := false
  isItalic : Bool := false
  isUnderlined : Bool := false
  isStrikethrough : Bool := false
  horizontalAlignment : Option String := none
  verticalAlignment : Option String := none
  backgroundColor : Option String := none
  borderTop : Option Border := none
  borderBottom : Option Border := none
  borderLeft : Option Border := none
  borderRight : Option Border := none
deriving Repr, DecidableEq

/-- The paragraph/run portion of `extract_cell_formatting`'s `try` block:
first paragraph only, first run only, with Python truthiness guards on
`run.font.name`, `run.font.size` and `run.font.color.rgb`, and
`run.bold or False` style defaulting for the flags. -/
def extractParagraphPart (cell : Cell) (f : Formatting) : Formatting :=
  match cell.paragraphs with
  | [] => f
  | p :: _ =>
    let f :=
      match p.alignment with
      | none => f
      | some a => { f with horizontalAlignment := alignmentMap a }
    match p.runs with
    | [] => f
    | r :: _ =>
      let f :=
        match r.fontName with
        | some nm => if pyTruthy nm then { f with fontFamily := some nm } else f
        | none => f
      let f :=
        match r.fontSizePt with
        | some n => if n ≠ 0 then { f with fontSize := some n } else f
        | none => f
      let f :=
        match r.fontColorRgb with
        | some c => if pyTruthy c then { f with fontColor := some c } else f
        | none => f
      { f with
        isBold := r.bold.getD false
        isItalic := r.italic.getD false
        isUnderlined := r.underline.getD false }

/-- The `find` of a border side element: the Python code searches for
`.//{nsmap[None]}side`, so the side element (which lives in `wNamespace`)
is found exactly when the default namespace is `wNamespace`. -/
def findBorderSide (ns : String) (side : Option Border) : Option Border :=
  if ns = wNamespace then side else none

/-- The body of `extract_cell_formatting`'s `try` block, threading the
mutable `formatting` dictionary.  The only raising operation is the
`tc_borders.nsmap[None]` lookup (a `KeyError` when the `tcBorders` element
has no default namespace); on that error the partially assembled
dictionary is carried in `Except.error`. -/
def extractBody (cell : Cell) : Except Formatting Formatting :=
  let f := extractParagraphPart cell {}
  match cell.element with
  | none => .ok f
  | some el =>
    match el.tcPr with
    | none => .ok f
    | some pr =>
      let f :=
        match pr.shd with
        | none => f
        | some fill =>
          match fill with
          | some v => if pyTruthy v then { f with backgroundColor := some v } else f
          | none => f
      let f :=
        match pr.vAlign with
        | none => f
        | some val => { f with verticalAlignment := val }
      match pr.tcBorders with
      | none => .ok f
      | some tb =>
        match tb.nsmapDefault with
        | none => .error f
        | some ns =>
          .ok { f with
            borderTop := findBorderSide ns tb.top
            borderBottom := findBorderSide ns tb.bottom
            borderLeft := findBorderSide ns tb.left
            borderRight := findBorderSide ns tb.right }

/-- `extract_cell_formatting` from `models/table_analysis.py`: the `try`
body whose `except Exception` returns the partially extracted
dictionary. -/
def extract_cell_formatting (cell : Cell) : Formatting :=
  match extractBody cell with
  | .ok f => f
  | .error f => f

/-- `CellStyleAnalysis` from `models/table_analysis.py` (the `width` and
`height` fields are always set to `None` by `analyze_table_structure`). -/
structure CellAnalysis where
  rowIndex : Nat
  columnIndex : Nat
  textContent : String
  isEmpty : Bool
  mergeInfo : Option MergeInfo
  fontFamily : Option String
  fontSize : Option Nat
  fontColor : Option String
  isBold : Bool
  isItalic : Bool
  isUnderlined : Bool
  isStrikethrough : Bool
  horizontalAlignment : Option String
  verticalAlignment : Option String
  backgroundColor : Option String
  topBorder : Option Border
  bottomBorder : Option Border
  leftBorder : Option Border
  rightBorder : Option Border
  width : Option Nat
  height : Option Nat
deriving Repr, DecidableEq

/-- A table as seen through the library boundary: its rows of cells, the
number of grid columns (`len(table.columns)`) and its style name
(`getattr(table.style, 'name', None)`). -/
structure Table where
  rows : List (List Cell)
  numColumns : Nat
  styleName : Option String
deriving Repr, DecidableEq

/-- Python `set.add` on a set represented as its insertion-ordered list of
distinct elements. -/
def addUnique [DecidableEq α] (l : List α) (a : α) : List α :=
  if a ∈ l then l else l ++ [a]

/-- The mutable aggregation state of `analyze_table_structure`'s cell loop,
apart from the `cells` grid: the merge summary and the six style-tracking
sets (each a Python `set`, modelled as its list of distinct elements). -/
structure StyleState where
  mergeRegions : List MergeInfo := []
  mergedCellsCount : Nat := 0
  fontFamilies : List String := []
  fontSizes : List Nat := []
  colors : List String := []
  backgroundColors : List String := []
  alignments : List String := []
  borderStyles : List String := []
deriving Repr, DecidableEq

/-- `if formatting["font_family"]: font_families.add(...)`. -/
def trackFont (f : Formatting) (st : StyleState) : StyleState :=
  match f.fontFamily with
  | some v => if pyTruthy v then { st with fontFamilies := addUnique st.fontFamilies v } else st
  | none => st

/-- `if formatting["font_size"]: font_sizes.add(...)` (a zero size is
falsy in Python). -/
def trackSize (f : Formatting) (st : StyleState) : StyleState :=
  match f.fontSize with
  | some n => if n ≠ 0 then { st with fontSizes := addUnique st.fontSizes n } else st
  | none => st

/-- `if formatting["font_color"]: colors.add(...)`. -/
def trackColor (f : Formatting) (st : StyleState) : StyleState :=
  match f.fontColor with
  | some v => if pyTruthy v then { st with colors := addUnique st.colors v } else st
  | none => st

/-- `if formatting["background_color"]: background_colors.add(...)`. -/
def trackBackground (f : Formatting) (st : StyleState) : StyleState :=
  match f.backgroundColor with
  | some v => if pyTruthy v then { st with backgroundColors := addUnique st.backgroundColors v } else st
  | none => st

/-- `if formatting["horizontal_alignment"]: alignments.add(...)`. -/
def trackAlign (f : Formatting) (st : StyleState) : StyleState :=
  match f.horizontalAlignment with
  | some v => if pyTruthy v then { st with alignments := addUnique st.alignments v } else st
  | none => st

/-- One iteration of the border loop
(`if border_info and border_info.get("style"): border_styles.add(...)`). -/
def trackBorderSide (b : Option Border) (st : StyleState) : StyleState :=
  match b with
  | some bi =>
    match bi.val with
    | some s => if pyTruthy s then { st with borderStyles := addUnique st.borderStyles s } else st
    | none => st
  | none => st

/-- The "track unique styles" block of `analyze_table_structure`, executed
for one cell's extracted formatting: each field is added to its set when it
is Python-truthy, and each of the four borders (iterated in the dictionary
order top, bottom, left, right) contributes its `style` entry when the
border dictionary is present and its style truthy. -/
def trackStyles (f : Formatting) (st : StyleState) : StyleState :=
  trackBorderSide f.borderRight
    (trackBorderSide f.borderLeft
      (trackBorderSide f.borderBottom
        (trackBorderSide f.borderTop
          (trackAlign f
            (trackBackground f
              (trackColor f
                (trackSize f
                  (trackFont f st))))))))

/-- One iteration of the inner cell loop of `analyze_table_structure`:
produces the `CellStyleAnalysis` appended to the current row and the
updated aggregation state. -/
def stepOneCell (details : Bool) (rIdx cIdx : Nat) (cell : Cell)
    (st : StyleState) : CellAnalysis × StyleState :=
  let textContent := cell.text
  let isEmpty := pyStrip textContent = ""
  let mi := analyze_cell_merge cell (rIdx : Int) (cIdx : Int)
  let st1 :=
    match mi with
    | some m => { st with mergeRegions := st.mergeRegions ++ [m],
                          mergedCellsCount := st.mergedCellsCount + 1 }
    | none => st
  if details then
    let f := extract_cell_formatting cell
    let st2 := trackStyles f st1
    ({ rowIndex := rIdx, columnIndex := cIdx,
       textContent := textContent, isEmpty := isEmpty, mergeInfo := mi,
       fontFamily := f.fontFamily, fontSize := f.fontSize,
       fontColor := f.fontColor, isBold := f.isBold, isItalic := f.isItalic,
       isUnderlined := f.isUnderlined, isStrikethrough := f.isStrikethrough,
       horizontalAlignment := f.horizontalAlignment,
       verticalAlignment := f.verticalAlignment,
       backgroundColor := f.backgroundColor,
       topBorder := f.borderTop, bottomBorder := f.borderBottom,
       leftBorder := f.borderLeft, rightBorder := f.borderRight,
       width := none, height := none }, st2)
  else
    ({ rowIndex := rIdx, columnIndex := cIdx,
       textContent := textContent, isEmpty := isEmpty, mergeInfo := mi,
       fontFamily := none, fontSize := none, fontColor := none,
       isBold := false, isItalic := false, isUnderlined := false,
       isStrikethrough := false, horizontalAlignment := none,
       verticalAlignment := none, backgroundColor := none,
       topBorder := none, bottomBorder := none, leftBorder := none,
       rightBorder := none, width := none, height := none }, st1)

/-- The inner `for col_idx, cell in enumerate(row.cells)` loop. -/
def stepCellsInRow (details : Bool) (rIdx : Nat) :
    Nat → List Cell → StyleState → List CellAnalysis × StyleState
  | _, [], st => ([], st)
  | cIdx, cell :: rest, st =>
    let (ca, st') := stepOneCell details rIdx cIdx cell st
    let (cas, st'') := stepCellsInRow details rIdx (cIdx + 1) rest st'
    (ca :: cas, st'')

/-- The outer `for row_idx, row in enumerate(table.rows)` loop. -/
def stepRows (details : Bool) :
    Nat → List (List Cell) → StyleState → List (List CellAnalysis) × StyleState
  | _, [], st => ([], st)
  | rIdx, row :: rest, st =>
    let (cas, st') := stepCellsInRow details rIdx 0 row st
    let (rows', st'') := stepRows details (rIdx + 1) rest st'
    (cas :: rows', st'')

/-- `TableStructureAnalysis` from `models/table_analysis.py`. -/
structure TableAnalysis where
  tableIndex : Int
  totalRows : Nat
  totalColumns : Nat
  tableStyleName : Option String
  tableAlignment : Option String
  tableWidth : Option Nat
  hasHeaderRow : Bool
  headerRowIndex : Option Nat
  headerCells : Option (List String)
  cells : List (List CellAnalysis)
  mergedCellsCount : Nat
  mergeRegions : List MergeInfo
  consistentFonts : Bool
  consistentAlignment : Bool
  consistentBorders : Bool
  uniqueFontFamilies : List String
  uniqueFontSizes : List Nat
  uniqueColors : List String
  uniqueBackgroundColors : List String
deriving Repr, DecidableEq

/-- The analysis core of `analyze_table_structure`
(`operations/tables/table_operations.py`), after the document and table
have been fetched and the index validated: header heuristic, cell loop,
and consistency flags (`len(set) <= 1`). -/
def analyzeTable (tableIndex : Int) (t : Table) (includeCellDetails : Bool) :
    TableAnalysis :=
  let totalRows := t.rows.length
  let totalColumns := if t.rows.isEmpty then 0 else t.numColumns
  let header : Bool × Option Nat × Option (List String) :=
    match t.rows with
    | [] => (false, none, none)
    | firstRow :: _ =>
      let firstRowTexts := firstRow.map (fun c => pyStrip c.text)
      if firstRowTexts.all (fun s => pyTruthy s) then
        (true, some 0, some firstRowTexts)
      else (false, none, none)
  let (cells, st) := stepRows includeCellDetails 0 t.rows {}
  { tableIndex := tableIndex
    totalRows := totalRows
    totalColumns := totalColumns
    tableStyleName := t.styleName
    tableAlignment := none
    tableWidth := none
    hasHeaderRow := header.1
    headerRowIndex := header.2.1
    headerCells := header.2.2
    cells := cells
    mergedCellsCount := st.mergedCellsCount
    mergeRegions := st.mergeRegions
    consistentFonts := decide (st.fontFamilies.length ≤ 1)
    consistentAlignment := decide (st.alignments.length ≤ 1)
    consistentBorders := decide (st.borderStyles.length ≤ 1)
    uniqueFontFamilies := st.fontFamilies
    uniqueFontSizes := st.fontSizes
    uniqueColors := st.colors
    uniqueBackgroundColors := st.backgroundColors }

/-- JSON-shaped values: the nested dictionaries/lists of primitives the
`to_dict` methods assemble. -/
inductive JVal where
  | null : JVal
  | bool : Bool → JVal
  | num : Int → JVal
  | str : String → JVal
  | arr : List JVal → JVal
  | obj : List (String × JVal) → JVal
deriving Repr

mutual

/-- Whether the string `k` occurs as a dictionary key anywhere inside a
JSON-shaped value. -/
def JVal.hasKeyDeep (k : String) : JVal → Bool
  | .null => false
  | .bool _ => false
  | .num _ => false
  | .str _ => false
  | .arr items => hasKeyDeepList k items
  | .obj fields => hasKeyDeepFields k fields

/-- `JVal.hasKeyDeep` over a list of values. -/
def hasKeyDeepList (k : String) : List JVal → Bool
  | [] => false
  | v :: vs => v.hasKeyDeep k || hasKeyDeepList k vs

/-- `JVal.hasKeyDeep` over a list of dictionary fields. -/
def hasKeyDeepFields (k : String) : List (String × JVal) → Bool
  | [] => false
  | (s, v) :: fs => decide (s = k) || v.hasKeyDeep k || hasKeyDeepFields k fs

end

/-- Shallow field lookup in a JSON-shaped dictionary. -/
def JVal.getField (v : JVal) (k : String) : Option JVal :=
  match v with
  | .obj fields => (fields.find? (fun p => p.1 = k)).map Prod.snd
  | _ => none

/-- `Option` to JSON null / string. -/
def jStr : Option String → JVal
  | none => .null
  | some s => .str s

/-- `Option` to JSON null / number. -/
def jNat : Option Nat → JVal
  | none => .null
  | some n => .num n

/-- The `border_info` dictionary as serialized inside `to_dict`. -/
def borderDict : Option Border → JVal
  | none => .null
  | some b => .obj [("style", jStr b.val), ("width", jStr b.sz), ("color", jStr b.color)]

/-- The serialization of a `MergeInfo` used both inside
`CellStyleAnalysis.to_dict` (under key `"merge"`) and in
`TableStructureAnalysis.to_dict`'s `merge_regions` list. -/
def mergeDict (m : MergeInfo) : JVal :=
  .obj [("type", .str m.mergeType),
        ("start_row", .num m.startRow), ("end_row", .num m.endRow),
        ("start_col", .num m.startCol), ("end_col", .num m.endCol),
        ("span_rows", .num m.spanRows), ("span_cols", .num m.spanCols)]

/-- `CellStyleAnalysis.to_dict` from `models/table_analysis.py`.  The
`dimensions` key is added only when `width` or `height` is not `None`. -/
def CellAnalysis.toDict (c : CellAnalysis) : JVal :=
  let base : List (String × JVal) :=
    [ ("position", .obj [("row", .num c.rowIndex), ("column", .num c.columnIndex)]),
      ("content", .obj [("text", .str c.textContent), ("is_empty", .bool c.isEmpty)]),
      ("text_format", .obj
        [("font_family", jStr c.fontFamily), ("font_size", jNat c.fontSize),
         ("font_color", jStr c.fontColor), ("bold", .bool c.isBold),
         ("italic", .bool c.isItalic), ("underlined", .bool c.isUnderlined),
         ("strikethrough", .bool c.isStrikethrough)]),
      ("alignment", .obj
        [("horizontal", jStr c.horizontalAlignment),
         ("vertical", jStr c.verticalAlignment)]),
      ("background", .obj [("color", jStr c.backgroundColor)]),
      ("borders", .obj
        [("top", borderDict c.topBorder), ("bottom", borderDict c.bottomBorder),
         ("left", borderDict c.leftBorder), ("right", borderDict c.rightBorder)]),
      ("merge", match c.mergeInfo with
        | some m => mergeDict m
        | none => .null) ]
  if c.width ≠ none ∨ c.height ≠ none then
    .obj (base ++ [("dimensions", .obj [("width", jNat c.width), ("height", jNat c.height)])])
  else .obj base

/-- `TableStructureAnalysis.to_dict` from `models/table_analysis.py`. -/
def TableAnalysis.toDict (a : TableAnalysis) : JVal :=
  .obj
    [ ("table_info", .obj
        [("index", .num a.tableIndex), ("rows", .num a.totalRows),
         ("columns", .num a.totalColumns), ("style_name", jStr a.tableStyleName),
         ("alignment", jStr a.tableAlignment), ("width", jNat a.tableWidth)]),
      ("header_info", .obj
        [("has_header", .bool a.hasHeaderRow),
         ("header_row_index", jNat a.headerRowIndex),
         ("header_cells", match a.headerCells with
           | some cs => .arr (cs.map JVal.str)
           | none => .null)]),
      ("cells", .arr (a.cells.map (fun row => .arr (row.map CellAnalysis.toDict)))),
      ("merge_analysis", .obj
        [("merged_cells_count", .num a.mergedCellsCount),
         ("merge_regions", .arr (a.mergeRegions.map mergeDict))]),
      ("style_consistency", .obj
        [("fonts", .bool a.consistentFonts),
         ("alignment", .bool a.consistentAlignment),
         ("borders", .bool a.consistentBorders)]),
      ("style_summary", .obj
        [("font_families", .arr (a.uniqueFontFamilies.map JVal.str)),
         ("font_sizes", .arr (a.uniqueFontSizes.map (fun n : Nat => JVal.num (n : Int)))),
         ("colors", .arr (a.uniqueColors.map JVal.str)),
         ("background_colors", .arr (a.uniqueBackgroundColors.map JVal.str))]) ]

/-- `analyze_all_tables` rebuilds, for each successfully analyzed table, a
`TableStructureAnalysis` from the per-table dictionary with `cells=[]` and
`merge_regions=[]`; this is that stripped record. -/
def stripForAllTables (a : TableAnalysis) : TableAnalysis :=
  { a with cells := [], mergeRegions := [] }

/-- The document-level dictionary produced by `analyze_all_tables`
(`TableAnalysisResult.to_dict`): `file_info` with the analysis timestamp
(`datetime.now().isoformat()`, modelled as an explicit parameter) and the
stripped per-table reports. -/
def analyzeAllDict (filePath : String) (tables : List Table)
    (includeCellDetails : Bool) (timestamp : String) : JVal :=
  let tableDicts :=
    (List.range tables.length).map (fun i =>
      match tables[i]? with
      | some t => (stripForAllTables (analyzeTable (i : Int) t includeCellDetails)).toDict
      | none => .null)
  .obj
    [ ("file_info", .obj
        [("path", .str filePath),
         ("total_tables", .num tables.length),
         ("analysis_timestamp", .str timestamp)]),
      ("tables", .arr tableDicts) ]

/-- `validate_table_index` from `utils/validation.py`; `Except.error`
carries the message of the raised `InvalidTableIndexError`. -/
def validate_table_index (tableIndex : Int) (maxTables : Option Nat) :
    Except String Unit :=
  if tableIndex < 0 then
    .error s!"Table index must be non-negative, got: {tableIndex}"
  else
    match maxTables with
    | none => .ok ()
    | some m =>
      if tableIndex ≥ (m : Int) then
        .error s!"Table index {tableIndex} out of range. Document has {m} tables."
      else .ok ()

/-- `validate_cell_position` from `utils/validation.py`; `Except.error`
carries the message of the raised `InvalidCellPositionError`. -/
def validate_cell_position (rowIndex columnIndex : Int)
    (maxRows maxColumns : Option Nat) : Except String Unit :=
  if rowIndex < 0 then
    .error s!"Row index must be non-negative, got: {rowIndex}"
  else if columnIndex < 0 then
    .error s!"Column index must be non-negative, got: {columnIndex}"
  else
    match maxRows with
    | some m =>
      if rowIndex ≥ (m : Int) then
        .error s!"Row index {rowIndex} out of range. Table has {m} rows."
      else
        match maxColumns with
        | some mc =>
          if columnIndex ≥ (mc : Int) then
            .error s!"Column index {columnIndex} out of range. Table has {mc} columns."
          else .ok ()
        | none => .ok ()
    | none =>
      match maxColumns with
      | some mc =>
        if columnIndex ≥ (mc : Int) then
          .error s!"Column index {columnIndex} out of range. Table has {mc} columns."
        else .ok ()
      | none => .ok ()

/-- `sanitize_string` from `utils/validation.py` applied to a string value:
control characters other than newline and tab are removed. -/
def sanitize_string (value : String) : String :=
  value.toList.filter (fun ch => ch.toNat ≥ 32 ∨ ch = '\n' ∨ ch = '\t')
    |>.asString

/-- `ResponseStatus` from `models/responses.py`. -/
inductive ResponseStatus where
  | success
  | error
  | warning
deriving Repr, DecidableEq

/-- `OperationResponse` from `models/responses.py` (`data` serialized as a
JSON-shaped value). -/
structure OperationResponse where
  status : ResponseStatus
  message : String
  data : Option JVal
  errorCode : Option String
deriving Repr

/-- The `OperationResponse.success` classmethod. -/
def successResponse (message : String) (data : Option JVal) :
    OperationResponse :=
  { status := .success, message := message, data := data, errorCode := none }

/-- The `OperationResponse.error` classmethod (called with no error code
throughout `table_operations.py`). -/
def errorResponse (message : String) : OperationResponse :=
  { status := .error, message := message, data := none, errorCode := none }

/-- A document, reduced to what the table operations touch: its ordered
table collection (`document.tables`). -/
def Document := List Table

/-- A run with no explicit formatting, as created by the library's
`cell.text` setter. -/
def emptyRun : Run :=
  { fontName := none, fontSizePt := none, fontColorRgb := none,
    bold := none, italic := none, underline := none }

/-- The library's `cell.text` setter: clears the cell content and leaves a
single paragraph holding a single run with the given text and no explicit
formatting. -/
def pySetCellText (cell : Cell) (s : String) : Cell :=
  { cell with text := s, paragraphs := [{ alignment := none, runs := [emptyRun] }] }

/-- Python `str.lstrip('#')`: drop every leading `#`. -/
def pyLstripHash (s : String) : String :=
  (s.toList.dropWhile (fun c => c = '#')).asString

/-- Hex-digit test for the color parsing in `set_cell_value`. -/
def isHexDigitChar (c : Char) : Bool :=
  c.isDigit ∨ ('a' ≤ c ∧ c ≤ 'f') ∨ ('A' ≤ c ∧ c ≤ 'F')

/-- The color-restoration step of `set_cell_value`: strip leading `#`; when
six hex digits remain, build an `RGBColor` (whose string form is the
uppercase hex); a parse failure (`ValueError`) is swallowed, leaving the
run color unchanged. -/
def parseRgbHex (s : String) : Option String :=
  let h := pyLstripHash s
  if h.length = 6 then
    if h.toList.all isHexDigitChar then some h.toUpper else none
  else none

/-- The `alignment_map` of `set_cell_value` sending alignment names to the
library's paragraph-alignment enum values. -/
def alignEnum (s : String) : Option Nat :=
  match s with
  | "left" => some 0
  | "center" => some 1
  | "right" => some 2
  | "justify" => some 3
  | _ => none

/-- The vertical-alignment `alignment_map` of `set_cell_value`. -/
def vAlignName (s : String) : Option String :=
  match s with
  | "top" => some "top"
  | "middle" => some "center"
  | "bottom" => some "bottom"
  | _ => none

/-- A fresh `tcPr` element, as created by the library's
`get_or_add_tcPr` when the cell had none. -/
def emptyTcPr : TcPr :=
  { shd := none, vAlign := none, tcBorders := none, vMerge := none }

/-- The mutation body of `set_cell_value` at its default optional
arguments (`text_format=None`, `alignment=None`, `background_color=None`,
`preserve_existing_format=True`): set the sanitized text and restore the
previously extracted formatting onto the fresh paragraph, run and cell
properties.  The inner `try/except` blocks around the `tcPr` updates are
modelled by skipping the update when the cell has no `_element`. -/
def applyCellMutation (cell : Cell) (value : String) : Cell :=
  let existing := extract_cell_formatting cell
  let cell := pySetCellText cell (sanitize_string value)
  -- paragraph alignment restoration
  let cell :=
    match cell.paragraphs with
    | [] => cell
    | p :: rest =>
      let p :=
        match existing.horizontalAlignment with
        | some h =>
          if pyTruthy h then
            match alignEnum h with
            | some e => { p with alignment := some e }
            | none => p
          else p
        | none => p
      let p :=
        match p.runs with
        | [] => p
        | r :: rrest =>
          let r :=
            match existing.fontFamily with
            | some nm => if pyTruthy nm then { r with fontName := some nm } else r
            | none => r
          let r :=
            match existing.fontSize with
            | some n => if n ≠ 0 then { r with fontSizePt := some n } else r
            | none => r
          let r :=
            match existing.fontColor with
            | some c =>
              if pyTruthy c then
                match parseRgbHex c with
                | some hex => { r with fontColorRgb := some hex }
                | none => r
              else r
            | none => r
          let r := { r with bold := some existing.isBold,
                            italic := some existing.isItalic,
                            underline := some existing.isUnderlined }
          { p with runs := r :: rrest }
      { cell with paragraphs := p :: rest }
  -- vertical alignment restoration (inner try/except swallows failures)
  let cell :=
    match existing.verticalAlignment with
    | some v =>
      if pyTruthy v then
        match vAlignName v with
        | some mapped =>
          match cell.element with
          | none => cell
          | some el =>
            let pr := el.tcPr.getD emptyTcPr
            let el2 := { el with tcPr := some { pr with vAlign := some (some mapped) } }
            { cell with element := some el2 }
        | none => cell
      else cell
    | none => cell
  -- background color restoration (inner try/except swallows failures)
  match existing.backgroundColor with
  | some bg =>
    if pyTruthy bg then
      match cell.element with
      | none => cell
      | some el =>
        let pr := el.tcPr.getD emptyTcPr
        let el2 := { el with tcPr := some { pr with shd := some (some (pyLstripHash bg)) } }
        { cell with element := some el2 }
    else cell
  | none => cell

/-- A placeholder table for validated-index lookups. -/
def defaultTable : Table := { rows := [], numColumns := 0, styleName := none }

/-- A placeholder cell for validated-position lookups. -/
def defaultCell : Cell := { text := "", paragraphs := [], element := none }

/-- `set_cell_value` from `operations/tables/table_operations.py` on a
loaded document, at default optional arguments: validate the table index
and the cell position, then mutate the addressed cell.  The raised
validation errors are caught by the surrounding
`except (InvalidTableIndexError, InvalidCellPositionError)` and turned
into error envelopes; the (unchanged) document is returned alongside the
response. -/
def set_cell_value (tables : Document) (tableIndex rowIndex columnIndex : Int)
    (value : String) : OperationResponse × Document :=
  match validate_table_index tableIndex (some (List.length tables)) with
  | .error m => (errorResponse m, tables)
  | .ok _ =>
    let t := List.getD tables tableIndex.toNat defaultTable
    match validate_cell_position rowIndex columnIndex
        (some t.rows.length) (some t.numColumns) with
    | .error m => (errorResponse m, tables)
    | .ok _ =>
      let row := t.rows.getD rowIndex.toNat []
      let cell := row.getD columnIndex.toNat defaultCell
      let newCell := applyCellMutation cell value
      let newRow := row.set columnIndex.toNat newCell
      let newTable := { t with rows := t.rows.set rowIndex.toNat newRow }
      let newTables := List.set tables tableIndex.toNat newTable
      (successResponse
        s!"Cell value and formatting set at table {tableIndex}, row {rowIndex}, column {columnIndex}"
        (some (.obj
          [("table_index", .num tableIndex), ("row_index", .num rowIndex),
           ("column_index", .num columnIndex),
           ("value", .str newCell.text)])),
       newTables)

/-- `get_cell_value` from `operations/tables/table_operations.py` on a
loaded document (formatting details elided from the data payload): the
same validations, followed by a pure read. -/
def get_cell_value (tables : Document) (tableIndex rowIndex columnIndex : Int) :
    OperationResponse :=
  match validate_table_index tableIndex (some (List.length tables)) with
  | .error m => errorResponse m
  | .ok _ =>
    let t := List.getD tables tableIndex.toNat defaultTable
    match validate_cell_position rowIndex columnIndex
        (some t.rows.length) (some t.numColumns) with
    | .error m => errorResponse m
    | .ok _ =>
      let row := t.rows.getD rowIndex.toNat []
      let cell := row.getD columnIndex.toNat defaultCell
      successResponse
        s!"Cell value retrieved from table {tableIndex}, row {rowIndex}, column {columnIndex}"
        (some (.obj
          [("table_index", .num tableIndex), ("row_index", .num rowIndex),
           ("column_index", .num columnIndex), ("value", .str cell.text),
           ("is_empty", .bool (pyStrip cell.text = ""))]))

/-- Descending insertion used to model Python
`sorted(set(row_indices), reverse=True)`. -/
def insertDescInt (a : Int) : List Int → List Int
  | [] => [a]
  | b :: l => if b ≤ a then a :: b :: l else b :: insertDescInt a l

/-- Descending sort of a list of integers. -/
def sortDescInt : List Int → List Int
  | [] => []
  | a :: l => insertDescInt a (sortDescInt l)

/-- The `for row_idx in row_indices: validate_cell_position(...)` loop of
`delete_table_rows`, which raises on the first invalid index. -/
def validateRowIndices (idxs : List Int) (nRows nCols : Nat) :
    Except String Unit :=
  match idxs with
  | [] => .ok ()
  | i :: rest =>
    match validate_cell_position i 0 (some nRows) (some nCols) with
    | .error m => .error m
    | .ok _ => validateRowIndices rest nRows nCols

/-- `delete_table_rows` from `operations/tables/table_operations.py`:
reject an empty index list, validate the table index and every row index,
then delete the rows at the distinct indices in descending order
(`sorted(set(row_indices), reverse=True)`, each handled by removing the
row element from its parent). -/
def delete_table_rows (tables : Document) (tableIndex : Int)
    (rowIndices : List Int) : OperationResponse × Document :=
  if rowIndices.isEmpty then
    (errorResponse "No row indices provided", tables)
  else
    match validate_table_index tableIndex (some (List.length tables)) with
    | .error m => (errorResponse m, tables)
    | .ok _ =>
      let t := List.getD tables tableIndex.toNat defaultTable
      match validateRowIndices rowIndices t.rows.length t.numColumns with
      | .error m => (errorResponse m, tables)
      | .ok _ =>
        let sortedIndices := sortDescInt rowIndices.dedup
        let newRows := sortedIndices.foldl
          (fun rows i => rows.eraseIdx i.toNat) t.rows
        let newTable := { t with rows := newRows }
        let newTables := List.set tables tableIndex.toNat newTable
        (successResponse
          s!"Deleted {sortedIndices.length} rows from table {tableIndex}"
          (some (.obj
            [("table_index", .num tableIndex),
             ("rows_deleted", .num sortedIndices.length),
             ("remaining_rows", .num newRows.length)])),
         newTables)

/-- `analyze_table_structure` as an operation on a loaded document: the
index validation followed by the pure analysis core, its report serialized
into the success envelope. -/
def analyze_table_structure (tables : Document) (tableIndex : Int)
    (includeCellDetails : Bool) : OperationResponse :=
  match validate_table_index tableIndex (some (List.length tables)) with
  | .error m => errorResponse m
  | .ok _ =>
    let t := List.getD tables tableIndex.toNat defaultTable
    successResponse
      s!"Table {tableIndex} structure analyzed successfully"
      (some (analyzeTable tableIndex t includeCellDetails).toDict)


/-! ## Helper lemmas -/

/-- `pyInt` succeeds only on non-empty strings. -/
theorem pyTruthy_of_pyInt {s : String} {n : Int} (h : pyInt s = some n) :
    pyTruthy s = true := by
  rcases eq_or_ne s "" with rfl | hne
  · have h0 : pyInt "" = none := by decide
    rw [h0] at h
    cases h
  · simp [pyTruthy, hne]

/-! ## C1: header detection heuristic -/

/-- C1.  For every table whose first row has non-empty trimmed text in
every cell, `analyze_table_structure` reports `has_header_row = true`,
`header_row_index = 0` and `header_cells` equal to the list of (trimmed)
row-0 cell texts; for every table with at least one first-row cell whose
trimmed text is empty, it reports `has_header_row = false` with
`header_row_index` and `header_cells` null. -/
theorem c1_header_detection (i : Int) (t : Table) (d : Bool)
    (r0 : List Cell) (rest : List (List Cell)) (hrows : t.rows = r0 :: rest) :
    ((∀ c ∈ r0, pyStrip c.text ≠ "") →
      (analyzeTable i t d).hasHeaderRow = true ∧
      (analyzeTable i t d).headerRowIndex = some 0 ∧
      (analyzeTable i t d).headerCells = some (r0.map (fun c => pyStrip c.text))) ∧
    ((∃ c ∈ r0, pyStrip c.text = "") →
      (analyzeTable i t d).hasHeaderRow = false ∧
      (analyzeTable i t d).headerRowIndex = none ∧
      (analyzeTable i t d).headerCells = none) := by
  constructor
  · intro hall
    have hcond : (r0.map (fun c => pyStrip c.text)).all (fun s => pyTruthy s) = true := by
      rw [List.all_eq_true]
      intro s hs
      rw [List.mem_map] at hs
      obtain ⟨c, hc, rfl⟩ := hs
      simpa [pyTruthy] using hall c hc
    simp [analyzeTable, hrows, hcond]
  · rintro ⟨c, hc, hempty⟩
    have hcond : (r0.map (fun c => pyStrip c.text)).all (fun s => pyTruthy s) = false := by
      rw [List.all_eq_false]
      exact ⟨pyStrip c.text, List.mem_map_of_mem _ hc, by simp [pyTruthy, hempty]⟩
    simp [analyzeTable, hrows, hcond]

/-- Input for the C1 witness: a fully populated first row. -/
def c1TableYes : Table :=
  { rows := [[{ text := " Name ", paragraphs := [], element := none },
              { text := "Age", paragraphs := [], element := none }]],
    numColumns := 2, styleName := none }

/-- Input for the C1 witness: a first row with a whitespace-only cell. -/
def c1TableNo : Table :=
  { rows := [[{ text := "Name", paragraphs := [], element := none },
              { text := "  ", paragraphs := [], element := none }]],
    numColumns := 2, styleName := none }

/-- Witness for C1 at two concrete tables. -/
theorem c1_header_detection_witness :
    ((analyzeTable 0 c1TableYes true).hasHeaderRow = true ∧
     (analyzeTable 0 c1TableYes true).headerRowIndex = some 0 ∧
     (analyzeTable 0 c1TableYes true).headerCells = some ["Name", "Age"]) ∧
    ((analyzeTable 0 c1TableNo true).hasHeaderRow = false ∧
     (analyzeTable 0 c1TableNo true).headerRowIndex = none ∧
     (analyzeTable 0 c1TableNo true).headerCells = none) := by
  constructor
  · have h := (c1_header_detection 0 c1TableYes true
      [{ text := " Name ", paragraphs := [], element := none },
       { text := "Age", paragraphs := [], element := none }] [] rfl).1
      (by decide)
    exact ⟨h.1, h.2.1, h.2.2⟩
  · have h := (c1_header_detection 0 c1TableNo true
      [{ text := "Name", paragraphs := [], element := none },
       { text := "  ", paragraphs := [], element := none }] [] rfl).2
      ⟨{ text := "  ", paragraphs := [], element := none }, by decide, by decide⟩
    exact ⟨h.1, h.2.1, h.2.2⟩

/-! ## C4: horizontal grid-span merge descriptor -/

/-- C4.  For every cell at `(row, col)` carrying an explicit horizontal
grid-span attribute that parses to `N > 1` and no vertical-merge marker,
`analyze_cell_merge` reports type `"horizontal"`, `span_cols = N`,
`span_rows = 1`, `start_col = col` and `end_col = col + N - 1`. -/
theorem c4_horizontal_merge_descriptor (cell : Cell) (r c : Int)
    (el : CellElement) (s : String) (n : Int)
    (hel : cell.element = some el) (hattr : el.gridSpanAttr = some s)
    (hparse : pyInt s = some n) (hn : 1 < n)
    (hvm : vMergeAttr cell = none) :
    analyze_cell_merge cell r c = some
      { mergeType := "horizontal", startRow := r, endRow := r,
        startCol := c, endCol := c + n - 1, spanRows := 1, spanCols := n } := by
  have hts : pyTruthy s = true := pyTruthy_of_pyInt hparse
  have hspan : gridSpanCols el = .ok n := by
    simp [gridSpanCols, hattr, hts, hparse]
  simp only [analyze_cell_merge, mergeBody, hel, hspan, hvm]
  simp [hn]

/-- A text-less cell carrying only a grid-span attribute and a `vMerge`
element, used as concrete input below. -/
def markupCell (gs : Option String) (vm : Option (Option String)) : Cell :=
  { text := "", paragraphs := [],
    element := some { gridSpanAttr := gs, tcPr := some { shd := none, vAlign := none, tcBorders := none, vMerge := vm } } }

/-- The `tc` element of `markupCell gs vm`. -/
def markupElem (gs : Option String) (vm : Option (Option String)) : CellElement :=
  { gridSpanAttr := gs, tcPr := some { shd := none, vAlign := none, tcBorders := none, vMerge := vm } }

/-- Input for the C4 witness: grid-span attribute `"3"`, no `vMerge`. -/
def c4Cell : Cell := markupCell (some "3") none

/-- Witness for C4 at a concrete cell with grid-span 3 at `(2, 5)`. -/
theorem c4_horizontal_merge_descriptor_witness :
    analyze_cell_merge c4Cell 2 5 = some
      { mergeType := "horizontal", startRow := 2, endRow := 2,
        startCol := 5, endCol := 7, spanRows := 1, spanCols := 3 } := by
  have h := c4_horizontal_merge_descriptor c4Cell 2 5
    (markupElem (some "3") none) "3" 3 rfl rfl rfl (by decide) rfl
  simpa using h

/-! ## C3: merge classification -/

/-- Input falsifying C3 as stated: a `vMerge` element present with no
`val` attribute, no grid span. -/
def c3Cell : Cell := markupCell none (some none)

/-- Counterexample to C3 as stated: `c3Cell` carries a vertical-merge
marker (the `vMerge` element is present, with no `val` attribute) and no
horizontal grid span, yet `analyze_cell_merge` returns no merge
descriptor instead of a `"vertical"` one — the code tests
`v_merge_elem.get(val) is not None`, so a marker without an explicit
`val` attribute is treated as no vertical merge. -/
theorem c3_counterexample :
    (c3Cell.element.bind CellElement.tcPr).bind TcPr.vMerge = some none ∧
    c3Cell.element.bind (fun el => el.gridSpanAttr) = none ∧
    analyze_cell_merge c3Cell 0 0 = none := by
  refine ⟨rfl, rfl, ?_⟩
  decide

/-- C3 (amended).  With "vertical-merge marker present" read as "the
`vMerge` element carries an explicit `val` attribute (of any value)" —
a `vMerge` element without a `val` attribute is treated as no vertical
merge — the classification is: grid-span `> 1` and marker present →
`"both"`; only grid-span `> 1` → `"horizontal"`; only marker present →
`"vertical"`; neither → no merge descriptor. -/
theorem c3_merge_classification (cell : Cell) (r c : Int)
    (el : CellElement) (n : Int)
    (hel : cell.element = some el) (hspan : gridSpanCols el = .ok n) :
    (1 < n → vMergeAttr cell ≠ none →
      (analyze_cell_merge cell r c).map MergeInfo.mergeType = some "both") ∧
    (1 < n → vMergeAttr cell = none →
      (analyze_cell_merge cell r c).map MergeInfo.mergeType = some "horizontal") ∧
    (¬ 1 < n → vMergeAttr cell ≠ none →
      (analyze_cell_merge cell r c).map MergeInfo.mergeType = some "vertical") ∧
    (¬ 1 < n → vMergeAttr cell = none →
      analyze_cell_merge cell r c = none) := by
  refine ⟨?_, ?_, ?_, ?_⟩
  · intro hn hvm
    simp only [analyze_cell_merge, mergeBody, hel, hspan]
    rw [if_pos (Or.inl hn), if_pos ⟨hn, hvm⟩]
    rfl
  · intro hn hvm
    simp only [analyze_cell_merge, mergeBody, hel, hspan, hvm]
    simp [hn]
  · intro hn hvm
    simp only [analyze_cell_merge, mergeBody, hel, hspan]
    rw [if_pos (Or.inr hvm)]
    rw [if_neg (by simp [hn])]
    rw [if_neg hn]
    rfl
  · intro hn hvm
    simp only [analyze_cell_merge, mergeBody, hel, hspan, hvm]
    simp [hn]

/-- Input for the C3 witness: grid-span `"2"` and a `vMerge` element with
`val = "restart"`. -/
def c3BothCell : Cell := markupCell (some "2") (some (some "restart"))

/-- Witness for the amended C3 at a concrete cell merged both ways. -/
theorem c3_merge_classification_witness :
    (analyze_cell_merge c3BothCell 0 0).map MergeInfo.mergeType = some "both" := by
  exact (c3_merge_classification c3BothCell 0 0
    (markupElem (some "2") (some (some "restart")))
    2 rfl rfl).1 (by decide) (by decide)

/-! ## C5: vertical merge span limitation -/

/-- Input falsifying C5 as stated: grid-span `"1"` and a `vMerge` element
present with no `val` attribute. -/
def c5Cell : Cell := markupCell (some "1") (some none)

/-- Counterexample to C5 as stated: `c5Cell` carries a vertical-merge
marker (`vMerge` element present, no `val` attribute) and grid-span 1,
yet `analyze_cell_merge` returns no descriptor at all rather than a
`"vertical"` one. -/
theorem c5_counterexample :
    (c5Cell.element.bind CellElement.tcPr).bind TcPr.vMerge = some none ∧
    c5Cell.element.bind (fun el => el.gridSpanAttr) = some "1" ∧
    analyze_cell_merge c5Cell 2 3 = none := by
  refine ⟨rfl, rfl, ?_⟩
  decide

/-- C5 (amended).  For every cell whose vertical-merge marker carries an
explicit `val` attribute (a marker without one is treated as no vertical
merge) and whose grid-span is absent or evaluates to 1, the merge
descriptor reports type `"vertical"`, `span_rows = 1` and `span_cols = 1`
— `span_rows` is always 1 regardless of how many rows are actually
merged, and `end_row` equals the cell's own row index. -/
theorem c5_vertical_span_limitation (cell : Cell) (r c : Int)
    (el : CellElement) (v : String)
    (hel : cell.element = some el) (hspan : gridSpanCols el = .ok 1)
    (hvm : vMergeAttr cell = some v) :
    analyze_cell_merge cell r c = some
      { mergeType := "vertical", startRow := r, endRow := r,
        startCol := c, endCol := c, spanRows := 1, spanCols := 1 } := by
  simp only [analyze_cell_merge, mergeBody, hel, hspan, hvm]
  rw [if_pos (Or.inr (by simp))]
  rw [if_neg (by simp)]
  rw [if_neg (by decide)]
  simp

/-- Input for the C5 witness: no grid span, `vMerge` with
`val = "continue"`. -/
def c5ContinueCell : Cell := markupCell none (some (some "continue"))

/-- Witness for the amended C5 at a concrete vertically merged cell at
row 7, column 4. -/
theorem c5_vertical_span_limitation_witness :
    analyze_cell_merge c5ContinueCell 7 4 = some
      { mergeType := "vertical", startRow := 7, endRow := 7,
        startCol := 4, endCol := 4, spanRows := 1, spanCols := 1 } := by
  exact c5_vertical_span_limitation c5ContinueCell 7 4
    (markupElem none (some (some "continue")))
    "continue" rfl rfl rfl

/-! ## C8: extraction never raises -/

/-- The paragraph/run part of the extractor never touches the border
fields. -/
theorem extractParagraphPart_borders (cell : Cell) (f : Formatting) :
    (extractParagraphPart cell f).borderTop = f.borderTop ∧
    (extractParagraphPart cell f).borderBottom = f.borderBottom ∧
    (extractParagraphPart cell f).borderLeft = f.borderLeft ∧
    (extractParagraphPart cell f).borderRight = f.borderRight := by
  simp only [extractParagraphPart]
  repeat' split <;> try exact ⟨rfl, rfl, rfl, rfl⟩

/-- When the extraction body raises, the partial dictionary it was
building still has all four borders unset: the only raising operation
(the `nsmap[None]` lookup) happens before any border is assigned. -/
theorem extractBody_error_borders (cell : Cell) (f : Formatting)
    (hf : extractBody cell = .error f) :
    f.borderTop = none ∧ f.borderBottom = none ∧
    f.borderLeft = none ∧ f.borderRight = none := by
  obtain ⟨h1, h2, h3, h4⟩ := extractParagraphPart_borders cell ({} : Formatting)
  unfold extractBody at hf
  repeat' split at hf <;> try cases hf
  all_goals simp_all

/-- C8.  Neither `extract_cell_formatting` nor `analyze_cell_merge` lets
an exception escape: when the inspection body raises, `analyze_cell_merge`
returns `None` ("no merge") and `extract_cell_formatting` returns the
fields successfully read so far, with the remaining fields (in
particular, all four borders) left at their null defaults. -/
theorem c8_extraction_never_raises (cell : Cell) (r c : Int) :
    (∀ e, mergeBody cell r c = .error e → analyze_cell_merge cell r c = none) ∧
    (∀ f, extractBody cell = .error f →
      extract_cell_formatting cell = f ∧
      f.borderTop = none ∧ f.borderBottom = none ∧
      f.borderLeft = none ∧ f.borderRight = none) := by
  constructor
  · intro e he
    unfold analyze_cell_merge
    rw [he]
  · intro f hf
    have hext : extract_cell_formatting cell = f := by
      unfold extract_cell_formatting
      rw [hf]
    obtain ⟨h1, h2, h3, h4⟩ := extractBody_error_borders cell f hf
    exact ⟨hext, h1, h2, h3, h4⟩

/-- Input for the C8 witness: a non-numeric grid-span attribute (so
`int()` raises) and a `tcBorders` element with no default namespace (so
the `nsmap[None]` lookup raises), together with paragraph alignment,
shading and vertical alignment that are read before the failure. -/
def c8Cell : Cell :=
  { text := "x",
    paragraphs := [{ alignment := some 2, runs := [] }],
    element := some { gridSpanAttr := some "abc", tcPr := some { shd := some (some "FF0000"), vAlign := some (some "center"), tcBorders := some { nsmapDefault := none, top := some { val := some "single", sz := none, color := none }, bottom := none, left := none, right := none }, vMerge := none } } }

/-- The partial dictionary `extract_cell_formatting` returns for
`c8Cell`: alignment, shading and vertical alignment were read, the
borders were not. -/
def c8Partial : Formatting :=
  { fontFamily := none, fontSize := none, fontColor := none,
    isBold := false, isItalic := false, isUnderlined := false,
    isStrikethrough := false, horizontalAlignment := some "right",
    verticalAlignment := some "center", backgroundColor := some "FF0000",
    borderTop := none, borderBottom := none, borderLeft := none,
    borderRight := none }

/-- Witness for C8 at a concrete cell whose markup makes both bodies
raise. -/
theorem c8_extraction_never_raises_witness :
    analyze_cell_merge c8Cell 0 0 = none ∧
    extract_cell_formatting c8Cell = c8Partial ∧
    c8Partial.borderTop = none ∧ c8Partial.borderBottom = none ∧
    c8Partial.borderLeft = none ∧ c8Partial.borderRight = none := by
  have h := c8_extraction_never_raises c8Cell 0 0
  exact ⟨h.1 () (by rfl), h.2 c8Partial (by rfl)⟩

/-! ## Aggregation lemmas: Python sets as deduplicated lists -/

/-- Membership in `addUnique`. -/
theorem mem_addUnique [DecidableEq α] {l : List α} {a b : α} :
    b ∈ addUnique l a ↔ b ∈ l ∨ b = a := by
  unfold addUnique
  split <;> rename_i h
  · constructor
    · exact fun hb => Or.inl hb
    · rintro (hb | rfl)
      · exact hb
      · exact h
  · simp

/-- `addUnique` preserves distinctness. -/
theorem nodup_addUnique [DecidableEq α] {l : List α} {a : α}
    (h : l.Nodup) : (addUnique l a).Nodup := by
  unfold addUnique
  split <;> rename_i ha
  · exact h
  · simpa [List.Nodup, List.pairwise_append] using ⟨h, fun b hb hba => ha (hba ▸ hb)⟩

/-- Membership after folding `addUnique` over a list of new elements. -/
theorem mem_foldl_addUnique [DecidableEq α] {xs : List α} {l : List α} {b : α} :
    b ∈ List.foldl addUnique l xs ↔ b ∈ l ∨ b ∈ xs := by
  induction xs generalizing l with
  | nil => simp
  | cons x xs ih =>
    rw [List.foldl_cons, ih, mem_addUnique, List.mem_cons]
    tauto

/-- Folding `addUnique` preserves distinctness. -/
theorem nodup_foldl_addUnique [DecidableEq α] {xs : List α} {l : List α}
    (h : l.Nodup) : (List.foldl addUnique l xs).Nodup := by
  induction xs generalizing l with
  | nil => exact h
  | cons x xs ih => exact ih (nodup_addUnique h)

/-- The length of the deduplicated accumulation is the number of distinct
elements of the input. -/
theorem length_foldl_addUnique [DecidableEq α] (xs : List α) :
    (List.foldl addUnique ([] : List α) xs).length = xs.toFinset.card := by
  have hnd : (List.foldl addUnique ([] : List α) xs).Nodup :=
    nodup_foldl_addUnique List.nodup_nil
  have hset : (List.foldl addUnique ([] : List α) xs).toFinset = xs.toFinset := by
    ext b
    simp [List.mem_toFinset, mem_foldl_addUnique]
  rw [← List.toFinset_card_of_nodup hnd, hset]

/-- The font-family value the style tracker adds for one cell's
formatting (empty when absent or falsy). -/
def fontTracked (f : Formatting) : List String :=
  match f.fontFamily with
  | some v => if pyTruthy v then [v] else []
  | none => []

/-- The horizontal-alignment value the style tracker adds. -/
def alignTracked (f : Formatting) : List String :=
  match f.horizontalAlignment with
  | some v => if pyTruthy v then [v] else []
  | none => []

/-- The border-style value one border side contributes to the tracker. -/
def borderSideTracked : Option Border → List String
  | some bi =>
    match bi.val with
    | some s => if pyTruthy s then [s] else []
    | none => []
  | none => []

/-- The border styles of all four sides, in the dictionary iteration
order top, bottom, left, right. -/
def borderTracked (f : Formatting) : List String :=
  borderSideTracked f.borderTop ++ borderSideTracked f.borderBottom ++
  borderSideTracked f.borderLeft ++ borderSideTracked f.borderRight

/-- The five aggregation-state components the consistency claims read,
after `trackFont`. -/
theorem trackFont_state (f : Formatting) (st : StyleState) :
    (trackFont f st).fontFamilies = List.foldl addUnique st.fontFamilies (fontTracked f) ∧
    (trackFont f st).alignments = st.alignments ∧
    (trackFont f st).borderStyles = st.borderStyles ∧
    (trackFont f st).mergeRegions = st.mergeRegions ∧
    (trackFont f st).mergedCellsCount = st.mergedCellsCount := by
  unfold trackFont fontTracked
  rcases f with ⟨ff, _, _, _, _, _, _, _, _, _, _, _, _, _⟩
  rcases ff with _ | v
  · refine ⟨?_, ?_, ?_, ?_, ?_⟩ <;> first | trivial | (split <;> trivial)
  · by_cases h : pyTruthy v = true
    · simp only [h, if_true]
      refine ⟨?_, ?_, ?_, ?_, ?_⟩ <;> first | trivial | (split <;> trivial)
    · simp only [Bool.not_eq_true] at h
      simp only [h, Bool.false_eq_true, if_false]
      refine ⟨?_, ?_, ?_, ?_, ?_⟩ <;> first | trivial | (split <;> trivial)

/-- `trackSize` leaves the claim-relevant components unchanged. -/
theorem trackSize_state (f : Formatting) (st : StyleState) :
    (trackSize f st).fontFamilies = st.fontFamilies ∧
    (trackSize f st).alignments = st.alignments ∧
    (trackSize f st).borderStyles = st.borderStyles ∧
    (trackSize f st).mergeRegions = st.mergeRegions ∧
    (trackSize f st).mergedCellsCount = st.mergedCellsCount := by
  unfold trackSize
  repeat' split <;> refine ⟨?_, ?_, ?_, ?_, ?_⟩ <;> first | trivial | (split <;> trivial)

/-- `trackColor` leaves the claim-relevant components unchanged. -/
theorem trackColor_state (f : Formatting) (st : StyleState) :
    (trackColor f st).fontFamilies = st.fontFamilies ∧
    (trackColor f st).alignments = st.alignments ∧
    (trackColor f st).borderStyles = st.borderStyles ∧
    (trackColor f st).mergeRegions = st.mergeRegions ∧
    (trackColor f st).mergedCellsCount = st.mergedCellsCount := by
  unfold trackColor
  repeat' split <;> refine ⟨?_, ?_, ?_, ?_, ?_⟩ <;> first | trivial | (split <;> trivial)

/-- `trackBackground` leaves the claim-relevant components unchanged. -/
theorem trackBackground_state (f : Formatting) (st : StyleState) :
    (trackBackground f st).fontFamilies = st.fontFamilies ∧
    (trackBackground f st).alignments = st.alignments ∧
    (trackBackground f st).borderStyles = st.borderStyles ∧
    (trackBackground f st).mergeRegions = st.mergeRegions ∧
    (trackBackground f st).mergedCellsCount = st.mergedCellsCount := by
  unfold trackBackground
  repeat' split <;> refine ⟨?_, ?_, ?_, ?_, ?_⟩ <;> first | trivial | (split <;> trivial)

/-- The five components after `trackAlign`. -/
theorem trackAlign_state (f : Formatting) (st : StyleState) :
    (trackAlign f st).fontFamilies = st.fontFamilies ∧
    (trackAlign f st).alignments = List.foldl addUnique st.alignments (alignTracked f) ∧
    (trackAlign f st).borderStyles = st.borderStyles ∧
    (trackAlign f st).mergeRegions = st.mergeRegions ∧
    (trackAlign f st).mergedCellsCount = st.mergedCellsCount := by
  unfold trackAlign alignTracked
  rcases f with ⟨_, _, _, _, _, _, _, ha, _, _, _, _, _, _⟩
  rcases ha with _ | v
  · refine ⟨?_, ?_, ?_, ?_, ?_⟩ <;> first | trivial | (split <;> trivial)
  · by_cases h : pyTruthy v = true
    · simp only [h, if_true]
      refine ⟨?_, ?_, ?_, ?_, ?_⟩ <;> first | trivial | (split <;> trivial)
    · simp only [Bool.not_eq_true] at h
      simp only [h, Bool.false_eq_true, if_false]
      refine ⟨?_, ?_, ?_, ?_, ?_⟩ <;> first | trivial | (split <;> trivial)

/-- The five components after one border side. -/
theorem trackBorderSide_state (b : Option Border) (st : StyleState) :
    (trackBorderSide b st).fontFamilies = st.fontFamilies ∧
    (trackBorderSide b st).alignments = st.alignments ∧
    (trackBorderSide b st).borderStyles = List.foldl addUnique st.borderStyles (borderSideTracked b) ∧
    (trackBorderSide b st).mergeRegions = st.mergeRegions ∧
    (trackBorderSide b st).mergedCellsCount = st.mergedCellsCount := by
  unfold trackBorderSide borderSideTracked
  rcases b with _ | ⟨bv, bs, bc⟩
  · refine ⟨?_, ?_, ?_, ?_, ?_⟩ <;> first | trivial | (split <;> trivial)
  · rcases bv with _ | v
    · refine ⟨?_, ?_, ?_, ?_, ?_⟩ <;> first | trivial | (split <;> trivial)
    · by_cases h : pyTruthy v = true
      · simp only [h, if_true]
        refine ⟨?_, ?_, ?_, ?_, ?_⟩ <;> first | trivial | (split <;> trivial)
      · simp only [Bool.not_eq_true] at h
        simp only [h, Bool.false_eq_true, if_false]
        refine ⟨?_, ?_, ?_, ?_, ?_⟩ <;> first | trivial | (split <;> trivial)

/-- `trackStyles` on the `fontFamilies` component. -/
theorem trackStyles_fontFamilies (f : Formatting) (st : StyleState) :
    (trackStyles f st).fontFamilies =
      List.foldl addUnique st.fontFamilies (fontTracked f) := by
  unfold trackStyles
  rw [(trackBorderSide_state _ _).1, (trackBorderSide_state _ _).1,
      (trackBorderSide_state _ _).1, (trackBorderSide_state _ _).1,
      (trackAlign_state _ _).1, (trackBackground_state _ _).1,
      (trackColor_state _ _).1, (trackSize_state _ _).1,
      (trackFont_state _ _).1]

/-- `trackStyles` on the `alignments` component. -/
theorem trackStyles_alignments (f : Formatting) (st : StyleState) :
    (trackStyles f st).alignments =
      List.foldl addUnique st.alignments (alignTracked f) := by
  unfold trackStyles
  rw [(trackBorderSide_state _ _).2.1, (trackBorderSide_state _ _).2.1,
      (trackBorderSide_state _ _).2.1, (trackBorderSide_state _ _).2.1,
      (trackAlign_state _ _).2.1, (trackBackground_state _ _).2.1,
      (trackColor_state _ _).2.1, (trackSize_state _ _).2.1,
      (trackFont_state _ _).2.1]

/-- `trackStyles` on the `borderStyles` component. -/
theorem trackStyles_borderStyles (f : Formatting) (st : StyleState) :
    (trackStyles f st).borderStyles =
      List.foldl addUnique st.borderStyles (borderTracked f) := by
  unfold trackStyles
  rw [(trackBorderSide_state _ _).2.2.1, (trackBorderSide_state _ _).2.2.1,
      (trackBorderSide_state _ _).2.2.1, (trackBorderSide_state _ _).2.2.1,
      (trackAlign_state _ _).2.2.1, (trackBackground_state _ _).2.2.1,
      (trackColor_state _ _).2.2.1, (trackSize_state _ _).2.2.1,
      (trackFont_state _ _).2.2.1, borderTracked]
  rw [List.foldl_append, List.foldl_append, List.foldl_append]

/-- `trackStyles` never touches the merge summary. -/
theorem trackStyles_merge (f : Formatting) (st : StyleState) :
    (trackStyles f st).mergeRegions = st.mergeRegions ∧
    (trackStyles f st).mergedCellsCount = st.mergedCellsCount := by
  unfold trackStyles
  constructor
  · rw [(trackBorderSide_state _ _).2.2.2.1, (trackBorderSide_state _ _).2.2.2.1,
        (trackBorderSide_state _ _).2.2.2.1, (trackBorderSide_state _ _).2.2.2.1,
        (trackAlign_state _ _).2.2.2.1, (trackBackground_state _ _).2.2.2.1,
        (trackColor_state _ _).2.2.2.1, (trackSize_state _ _).2.2.2.1,
        (trackFont_state _ _).2.2.2.1]
  · rw [(trackBorderSide_state _ _).2.2.2.2, (trackBorderSide_state _ _).2.2.2.2,
        (trackBorderSide_state _ _).2.2.2.2, (trackBorderSide_state _ _).2.2.2.2,
        (trackAlign_state _ _).2.2.2.2, (trackBackground_state _ _).2.2.2.2,
        (trackColor_state _ _).2.2.2.2, (trackSize_state _ _).2.2.2.2,
        (trackFont_state _ _).2.2.2.2]

/-! ## Cell-loop lemmas -/

/-- Unfolding of the inner loop on a cons cell. -/
theorem stepCellsInRow_cons (d : Bool) (rI cI : Nat) (cell : Cell)
    (rest : List Cell) (st : StyleState) :
    stepCellsInRow d rI cI (cell :: rest) st =
      ((stepOneCell d rI cI cell st).1 ::
        (stepCellsInRow d rI (cI + 1) rest (stepOneCell d rI cI cell st).2).1,
       (stepCellsInRow d rI (cI + 1) rest (stepOneCell d rI cI cell st).2).2) := rfl

/-- Unfolding of the outer loop on a cons row. -/
theorem stepRows_cons (d : Bool) (rI : Nat) (row : List Cell)
    (rest : List (List Cell)) (st : StyleState) :
    stepRows d rI (row :: rest) st =
      ((stepCellsInRow d rI 0 row st).1 ::
        (stepRows d (rI + 1) rest (stepCellsInRow d rI 0 row st).2).1,
       (stepRows d (rI + 1) rest (stepCellsInRow d rI 0 row st).2).2) := rfl

/-- One cell's effect on the merge summary, for either detail flag. -/
theorem stepOneCell_merge (d : Bool) (r c : Nat) (cell : Cell) (st : StyleState) :
    ((stepOneCell d r c cell st).2).mergeRegions =
      st.mergeRegions ++ (analyze_cell_merge cell (r : Int) (c : Int)).toList ∧
    ((stepOneCell d r c cell st).2).mergedCellsCount =
      st.mergedCellsCount + (analyze_cell_merge cell (r : Int) (c : Int)).toList.length := by
  unfold stepOneCell
  cases h : analyze_cell_merge cell (r : Int) (c : Int) <;>
    cases d <;>
      simp [h, (trackStyles_merge _ _).1, (trackStyles_merge _ _).2]

/-- One cell's effect on the three consistency-relevant style sets with
details enabled. -/
theorem stepOneCell_state_true (r c : Nat) (cell : Cell) (st : StyleState) :
    ((stepOneCell true r c cell st).2).fontFamilies =
      List.foldl addUnique st.fontFamilies (fontTracked (extract_cell_formatting cell)) ∧
    ((stepOneCell true r c cell st).2).alignments =
      List.foldl addUnique st.alignments (alignTracked (extract_cell_formatting cell)) ∧
    ((stepOneCell true r c cell st).2).borderStyles =
      List.foldl addUnique st.borderStyles (borderTracked (extract_cell_formatting cell)) := by
  unfold stepOneCell
  cases h : analyze_cell_merge cell (r : Int) (c : Int) <;>
    simp [h, trackStyles_fontFamilies, trackStyles_alignments, trackStyles_borderStyles]

/-- With details disabled, the cell loop leaves every style set
untouched. -/
theorem stepOneCell_state_false (r c : Nat) (cell : Cell) (st : StyleState) :
    ((stepOneCell false r c cell st).2).fontFamilies = st.fontFamilies ∧
    ((stepOneCell false r c cell st).2).fontSizes = st.fontSizes ∧
    ((stepOneCell false r c cell st).2).colors = st.colors ∧
    ((stepOneCell false r c cell st).2).backgroundColors = st.backgroundColors ∧
    ((stepOneCell false r c cell st).2).alignments = st.alignments ∧
    ((stepOneCell false r c cell st).2).borderStyles = st.borderStyles := by
  unfold stepOneCell
  cases h : analyze_cell_merge cell (r : Int) (c : Int) <;> simp [h]

/-- The produced `CellStyleAnalysis` does not depend on the incoming
aggregation state. -/
theorem stepOneCell_fst_const (d : Bool) (r c : Nat) (cell : Cell)
    (st st' : StyleState) :
    (stepOneCell d r c cell st).1 = (stepOneCell d r c cell st').1 := by
  unfold stepOneCell
  cases analyze_cell_merge cell (r : Int) (c : Int) <;> cases d <;> rfl

/-- Generic characterization of a consistency-relevant component of the
inner cell loop with details enabled. -/
theorem stepCellsInRow_proj {α : Type} [DecidableEq α]
    (proj : StyleState → List α) (obsC : Cell → List α)
    (h : ∀ (r c : Nat) (cell : Cell) (st : StyleState),
      proj ((stepOneCell true r c cell st).2) =
        List.foldl addUnique (proj st) (obsC cell)) :
    ∀ (rI cI : Nat) (cells : List Cell) (st : StyleState),
      proj ((stepCellsInRow true rI cI cells st).2) =
        List.foldl addUnique (proj st) (cells.flatMap obsC) := by
  intro rI cI cells
  induction cells generalizing cI with
  | nil => intro st; rfl
  | cons cell rest ih =>
    intro st
    rw [stepCellsInRow_cons]
    simp only []
    rw [ih, h, List.flatMap_cons, List.foldl_append]

/-- Generic characterization of a consistency-relevant component of the
whole row loop with details enabled. -/
theorem stepRows_proj {α : Type} [DecidableEq α]
    (proj : StyleState → List α) (obsC : Cell → List α)
    (h : ∀ (r c : Nat) (cell : Cell) (st : StyleState),
      proj ((stepOneCell true r c cell st).2) =
        List.foldl addUnique (proj st) (obsC cell)) :
    ∀ (rI : Nat) (rows : List (List Cell)) (st : StyleState),
      proj ((stepRows true rI rows st).2) =
        List.foldl addUnique (proj st) ((rows.flatten).flatMap obsC) := by
  intro rI rows
  induction rows generalizing rI with
  | nil => intro st; rfl
  | cons row rest ih =>
    intro st
    rw [stepRows_cons]
    simp only []
    rw [ih, stepCellsInRow_proj proj obsC h]
    rw [List.flatten_cons, List.flatMap_append, List.foldl_append]

/-! ## C2: style-consistency flags -/

/-- Claim side: the non-null font-family value observed in a cell's
extracted style snapshot. -/
def cellFontObs (cell : Cell) : List String :=
  match (extract_cell_formatting cell).fontFamily with
  | some v => [v]
  | none => []

/-- Claim side: the non-null horizontal-alignment value observed in a
cell's extracted style snapshot. -/
def cellAlignObs (cell : Cell) : List String :=
  match (extract_cell_formatting cell).horizontalAlignment with
  | some v => [v]
  | none => []

/-- Claim side: the non-null border-style value of one border side. -/
def borderObsSide : Option Border → List String
  | some bi =>
    match bi.val with
    | some v => [v]
    | none => []
  | none => []

/-- Claim side: the non-null border-style values observed in a cell's
extracted style snapshot (all four sides). -/
def cellBorderObs (cell : Cell) : List String :=
  borderObsSide (extract_cell_formatting cell).borderTop ++
  borderObsSide (extract_cell_formatting cell).borderBottom ++
  borderObsSide (extract_cell_formatting cell).borderLeft ++
  borderObsSide (extract_cell_formatting cell).borderRight

/-- All cells of a table, row-major. -/
def tableCells (t : Table) : List Cell := t.rows.flatten

/-- Claim side: all non-null font-family values observed across a
table's cells. -/
def observedFonts (t : Table) : List String :=
  (tableCells t).flatMap cellFontObs

/-- Claim side: all non-null horizontal-alignment values observed across
a table's cells. -/
def observedAlignments (t : Table) : List String :=
  (tableCells t).flatMap cellAlignObs

/-- Claim side: all non-null border-style values observed across a
table's cells. -/
def observedBorderStyles (t : Table) : List String :=
  (tableCells t).flatMap cellBorderObs

/-- The cell-properties half of the extraction body never touches the
font family or the horizontal alignment, whether it completes or
raises. -/
theorem extractBody_pre (cell : Cell) (g : Formatting)
    (h : extractBody cell = .ok g ∨ extractBody cell = .error g) :
    g.fontFamily = (extractParagraphPart cell {}).fontFamily ∧
    g.horizontalAlignment = (extractParagraphPart cell {}).horizontalAlignment := by
  rcases h with h | h <;>
    (unfold extractBody at h
     repeat' split at h <;> try cases h) <;>
    try cases h
  all_goals exact ⟨rfl, rfl⟩

/-- `extract_cell_formatting` takes its font family and horizontal
alignment from the paragraph/run part. -/
theorem extract_paragraph_fields (cell : Cell) :
    (extract_cell_formatting cell).fontFamily =
      (extractParagraphPart cell {}).fontFamily ∧
    (extract_cell_formatting cell).horizontalAlignment =
      (extractParagraphPart cell {}).horizontalAlignment := by
  unfold extract_cell_formatting
  cases hb : extractBody cell with
  | ok g => exact extractBody_pre cell g (Or.inl hb)
  | error g => exact extractBody_pre cell g (Or.inr hb)

/-- The extractor only records a font family it found truthy, so the
recorded value is never the empty string. -/
theorem extract_fontFamily_truthy (cell : Cell) (v : String)
    (h : (extract_cell_formatting cell).fontFamily = some v) :
    pyTruthy v = true := by
  rw [(extract_paragraph_fields cell).1] at h
  unfold extractParagraphPart at h
  repeat' split at h <;> try cases h
  all_goals simp_all [pyTruthy]

/-- `alignment_map` values are non-empty strings. -/
theorem alignmentMap_truthy (a : Nat) (v : String)
    (h : alignmentMap a = some v) : pyTruthy v = true := by
  unfold alignmentMap at h
  split at h <;> simp_all <;> subst h <;> decide

/-- The extractor's horizontal alignment comes from `alignment_map`, so
the recorded value is never the empty string. -/
theorem extract_horizontalAlignment_truthy (cell : Cell) (v : String)
    (h : (extract_cell_formatting cell).horizontalAlignment = some v) :
    pyTruthy v = true := by
  rw [(extract_paragraph_fields cell).2] at h
  unfold extractParagraphPart at h
  repeat' split at h <;> try cases h
  all_goals
    first
      | (simp_all [pyTruthy]; done)
      | (have hT := alignmentMap_truthy _ _ (by assumption)
         simp_all [pyTruthy])

/-- The tracked font value and the claim-side observed font value
coincide: the extractor never records an empty font family. -/
theorem fontTracked_extract_eq :
    (fun cell => fontTracked (extract_cell_formatting cell)) = cellFontObs := by
  funext cell
  unfold fontTracked cellFontObs
  cases h : (extract_cell_formatting cell).fontFamily with
  | none => rfl
  | some v => simp [extract_fontFamily_truthy cell v h]

/-- The tracked alignment value and the claim-side observed alignment
value coincide. -/
theorem alignTracked_extract_eq :
    (fun cell => alignTracked (extract_cell_formatting cell)) = cellAlignObs := by
  funext cell
  unfold alignTracked cellAlignObs
  cases h : (extract_cell_formatting cell).horizontalAlignment with
  | none => rfl
  | some v => simp [extract_horizontalAlignment_truthy cell v h]

/-- The tracked border styles are exactly the observed ones with empty
strings dropped (the aggregation's truthiness test). -/
theorem borderTracked_extract_eq :
    (fun cell => borderTracked (extract_cell_formatting cell)) =
      (fun cell => (cellBorderObs cell).filter (fun s => s ≠ "")) := by
  funext cell
  have hside : ∀ b : Option Border,
      borderSideTracked b = (borderObsSide b).filter (fun s => s ≠ "") := by
    intro b
    unfold borderSideTracked borderObsSide
    rcases b with _ | ⟨bv, bs, bc⟩
    · rfl
    · rcases bv with _ | v
      · rfl
      · by_cases h : v = "" <;> simp [pyTruthy, h]
  unfold borderTracked cellBorderObs
  simp [List.filter_append, hside]

/-- The `consistent_fonts` flag computed by the analyzer equals the
claim-side distinct-count test. -/
theorem analyzeTable_consistentFonts (i : Int) (t : Table) :
    (analyzeTable i t true).consistentFonts =
      decide ((observedFonts t).toFinset.card ≤ 1) := by
  unfold analyzeTable
  simp only []
  rw [stepRows_proj (fun st => st.fontFamilies)
      (fun cell => fontTracked (extract_cell_formatting cell))
      (fun r c cell st => (stepOneCell_state_true r c cell st).1)]
  rw [fontTracked_extract_eq]
  rw [show (StyleState.fontFamilies {}) = ([] : List String) from rfl]
  rw [length_foldl_addUnique]
  rfl

/-- The `consistent_alignment` flag equals the claim-side test. -/
theorem analyzeTable_consistentAlignment (i : Int) (t : Table) :
    (analyzeTable i t true).consistentAlignment =
      decide ((observedAlignments t).toFinset.card ≤ 1) := by
  unfold analyzeTable
  simp only []
  rw [stepRows_proj (fun st => st.alignments)
      (fun cell => alignTracked (extract_cell_formatting cell))
      (fun r c cell st => (stepOneCell_state_true r c cell st).2.1)]
  rw [alignTracked_extract_eq]
  rw [show (StyleState.alignments {}) = ([] : List String) from rfl]
  rw [length_foldl_addUnique]
  rfl

/-- The `consistent_borders` flag equals the claim-side test on the
non-empty observed border styles. -/
theorem analyzeTable_consistentBorders (i : Int) (t : Table) :
    (analyzeTable i t true).consistentBorders =
      decide (((observedBorderStyles t).filter (fun s => s ≠ "")).toFinset.card ≤ 1) := by
  unfold analyzeTable
  simp only []
  rw [stepRows_proj (fun st => st.borderStyles)
      (fun cell => borderTracked (extract_cell_formatting cell))
      (fun r c cell st => (stepOneCell_state_true r c cell st).2.2)]
  rw [borderTracked_extract_eq]
  rw [show (StyleState.borderStyles {}) = ([] : List String) from rfl]
  rw [length_foldl_addUnique]
  rw [show (observedBorderStyles t).filter (fun s => s ≠ "") =
    (tableCells t).flatMap (fun cell => (cellBorderObs cell).filter (fun s => s ≠ "")) from ?_]
  · rfl
  · unfold observedBorderStyles
    induction tableCells t with
    | nil => rfl
    | cons cell rest ih =>
      rw [List.flatMap_cons, List.flatMap_cons, List.filter_append, ih]

/-- C2 (amended).  For every table analyzed with cell details enabled,
the fonts and alignment consistency flags are true iff the set of
distinct non-null values observed for that dimension across all cells
has cardinality at most 1 (vacuously true when no cell specifies the
dimension); the borders flag is true iff the set of distinct non-null,
non-empty border-style values has cardinality at most 1 — an
empty-string border-style attribute is recorded in the per-cell snapshot
but ignored by the aggregation's truthiness test. -/
theorem c2_style_consistency_flags (i : Int) (t : Table) :
    ((analyzeTable i t true).consistentFonts = true ↔
      (observedFonts t).toFinset.card ≤ 1) ∧
    ((analyzeTable i t true).consistentAlignment = true ↔
      (observedAlignments t).toFinset.card ≤ 1) ∧
    ((analyzeTable i t true).consistentBorders = true ↔
      ((observedBorderStyles t).filter (fun s => s ≠ "")).toFinset.card ≤ 1) := by
  refine ⟨?_, ?_, ?_⟩
  · rw [analyzeTable_consistentFonts]
    exact decide_eq_true_iff
  · rw [analyzeTable_consistentAlignment]
    exact decide_eq_true_iff
  · rw [analyzeTable_consistentBorders]
    exact decide_eq_true_iff

/-- The single cell of the C2 counterexample: a top border with an
empty-string style and a bottom border with style `"single"`. -/
def c2Cell : Cell :=
  { text := "", paragraphs := [],
    element := some { gridSpanAttr := none, tcPr := some { shd := none, vAlign := none, tcBorders := some { nsmapDefault := some wNamespace, top := some { val := some "", sz := none, color := none }, bottom := some { val := some "single", sz := none, color := none }, left := none, right := none }, vMerge := none } } }

/-- The one-cell table of the C2 counterexample. -/
def c2Table : Table :=
  { rows := [[c2Cell]], numColumns := 1, styleName := none }

/-- Counterexample to C2 as stated: `c2Table`'s cell carries two
distinct non-null border-style values (`""` and `"single"`), so the
claim requires `consistent_borders = false`, but the analyzer reports
`true` because the empty-string style fails the aggregation's Python
truthiness test and is never added to the tracking set. -/
theorem c2_counterexample :
    (analyzeTable 0 c2Table true).consistentBorders = true ∧
    (observedBorderStyles c2Table).toFinset.card = 2 := by
  constructor <;> decide

/-! ## C6: detail-flag contract -/

/-- The merge descriptors contributed by one row, starting at a given
column index. -/
def rowMerges (ri : Nat) : Nat → List Cell → List MergeInfo
  | _, [] => []
  | ci, cell :: rest =>
    (analyze_cell_merge cell (ri : Int) (ci : Int)).toList ++ rowMerges ri (ci + 1) rest

/-- The merge descriptors contributed by all rows from a given row
index. -/
def rowsMerges : Nat → List (List Cell) → List MergeInfo
  | _, [] => []
  | ri, row :: rest => rowMerges ri 0 row ++ rowsMerges (ri + 1) rest

/-- The inner loop's merge summary is the incoming one extended by the
row's descriptors, for either detail flag. -/
theorem stepCellsInRow_merge (d : Bool) (rI : Nat) :
    ∀ (cells : List Cell) (cI : Nat) (st : StyleState),
      ((stepCellsInRow d rI cI cells st).2).mergeRegions =
        st.mergeRegions ++ rowMerges rI cI cells ∧
      ((stepCellsInRow d rI cI cells st).2).mergedCellsCount =
        st.mergedCellsCount + (rowMerges rI cI cells).length := by
  intro cells
  induction cells with
  | nil => intro cI st; simp [stepCellsInRow, rowMerges]
  | cons cell rest ih =>
    intro cI st
    rw [stepCellsInRow_cons]
    simp only []
    obtain ⟨ihr, ihc⟩ := ih (cI + 1) (stepOneCell d rI cI cell st).2
    obtain ⟨hm, hc⟩ := stepOneCell_merge d rI cI cell st
    constructor
    · rw [ihr, hm, rowMerges]
      simp [List.append_assoc]
    · rw [ihc, hc, rowMerges]
      simp [Nat.add_assoc]

/-- The row loop's merge summary, for either detail flag. -/
theorem stepRows_merge (d : Bool) :
    ∀ (rows : List (List Cell)) (rI : Nat) (st : StyleState),
      ((stepRows d rI rows st).2).mergeRegions =
        st.mergeRegions ++ rowsMerges rI rows ∧
      ((stepRows d rI rows st).2).mergedCellsCount =
        st.mergedCellsCount + (rowsMerges rI rows).length := by
  intro rows
  induction rows with
  | nil => intro rI st; simp [stepRows, rowsMerges]
  | cons row rest ih =>
    intro rI st
    rw [stepRows_cons]
    simp only []
    obtain ⟨ihr, ihc⟩ := ih (rI + 1) (stepCellsInRow d rI 0 row st).2
    obtain ⟨hm, hc⟩ := stepCellsInRow_merge d rI row 0 st
    constructor
    · rw [ihr, hm, rowsMerges]
      simp [List.append_assoc]
    · rw [ihc, hc, rowsMerges]
      simp [Nat.add_assoc]

/-- With details disabled the inner loop leaves every style set
untouched. -/
theorem stepCellsInRow_false_styles (rI : Nat) :
    ∀ (cells : List Cell) (cI : Nat) (st : StyleState),
      ((stepCellsInRow false rI cI cells st).2).fontFamilies = st.fontFamilies ∧
      ((stepCellsInRow false rI cI cells st).2).fontSizes = st.fontSizes ∧
      ((stepCellsInRow false rI cI cells st).2).colors = st.colors ∧
      ((stepCellsInRow false rI cI cells st).2).backgroundColors = st.backgroundColors ∧
      ((stepCellsInRow false rI cI cells st).2).alignments = st.alignments ∧
      ((stepCellsInRow false rI cI cells st).2).borderStyles = st.borderStyles := by
  intro cells
  induction cells with
  | nil => intro cI st; exact ⟨rfl, rfl, rfl, rfl, rfl, rfl⟩
  | cons cell rest ih =>
    intro cI st
    rw [stepCellsInRow_cons]
    simp only []
    obtain ⟨h1, h2, h3, h4, h5, h6⟩ := ih (cI + 1) (stepOneCell false rI cI cell st).2
    obtain ⟨g1, g2, g3, g4, g5, g6⟩ := stepOneCell_state_false rI cI cell st
    exact ⟨h1.trans g1, h2.trans g2, h3.trans g3, h4.trans g4, h5.trans g5, h6.trans g6⟩

/-- With details disabled the whole loop leaves every style set
untouched. -/
theorem stepRows_false_styles :
    ∀ (rows : List (List Cell)) (rI : Nat) (st : StyleState),
      ((stepRows false rI rows st).2).fontFamilies = st.fontFamilies ∧
      ((stepRows false rI rows st).2).fontSizes = st.fontSizes ∧
      ((stepRows false rI rows st).2).colors = st.colors ∧
      ((stepRows false rI rows st).2).backgroundColors = st.backgroundColors ∧
      ((stepRows false rI rows st).2).alignments = st.alignments ∧
      ((stepRows false rI rows st).2).borderStyles = st.borderStyles := by
  intro rows
  induction rows with
  | nil => intro rI st; exact ⟨rfl, rfl, rfl, rfl, rfl, rfl⟩
  | cons row rest ih =>
    intro rI st
    rw [stepRows_cons]
    simp only []
    obtain ⟨h1, h2, h3, h4, h5, h6⟩ := ih (rI + 1) (stepCellsInRow false rI 0 row st).2
    obtain ⟨g1, g2, g3, g4, g5, g6⟩ := stepCellsInRow_false_styles rI row 0 st
    exact ⟨h1.trans g1, h2.trans g2, h3.trans g3, h4.trans g4, h5.trans g5, h6.trans g6⟩

/-- Dropping the expensive per-cell fields from a detailed cell
analysis: position, content and merge info survive, text formatting,
alignment, background and borders are nulled. -/
def stripDetails (ca : CellAnalysis) : CellAnalysis :=
  { ca with
    fontFamily := none, fontSize := none, fontColor := none,
    isBold := false, isItalic := false, isUnderlined := false,
    isStrikethrough := false, horizontalAlignment := none,
    verticalAlignment := none, backgroundColor := none,
    topBorder := none, bottomBorder := none, leftBorder := none,
    rightBorder := none, width := none, height := none }

/-- The minimal per-cell analysis is the detailed one with the expensive
fields stripped, irrespective of the aggregation states. -/
theorem stepOneCell_fst_strip (r c : Nat) (cell : Cell) (st st' : StyleState) :
    (stepOneCell false r c cell st).1 =
      stripDetails ((stepOneCell true r c cell st').1) := by
  unfold stepOneCell stripDetails
  cases analyze_cell_merge cell (r : Int) (c : Int) <;> rfl

/-- Row-level strip relation between the two detail modes. -/
theorem stepCellsInRow_strip (rI : Nat) :
    ∀ (cells : List Cell) (cI : Nat) (st st' : StyleState),
      (stepCellsInRow false rI cI cells st).1 =
        List.map stripDetails ((stepCellsInRow true rI cI cells st').1) := by
  intro cells
  induction cells with
  | nil => intro cI st st'; rfl
  | cons cell rest ih =>
    intro cI st st'
    rw [stepCellsInRow_cons, stepCellsInRow_cons]
    simp only [List.map_cons]
    exact congrArg₂ _ (stepOneCell_fst_strip rI cI cell st st') (ih (cI + 1) _ _)

/-- Table-level strip relation between the two detail modes. -/
theorem stepRows_strip :
    ∀ (rows : List (List Cell)) (rI : Nat) (st st' : StyleState),
      (stepRows false rI rows st).1 =
        List.map (List.map stripDetails) ((stepRows true rI rows st').1) := by
  intro rows
  induction rows with
  | nil => intro rI st st'; rfl
  | cons row rest ih =>
    intro rI st st'
    rw [stepRows_cons, stepRows_cons]
    simp only [List.map_cons]
    exact congrArg₂ _ (stepCellsInRow_strip rI row 0 st st') (ih (rI + 1) _ _)

/-- C6 (amended).  Calling the analyzer with cell details disabled
returns the same table_info, header_info and merge_analysis sections as
with details enabled; the style_consistency flags of the disabled call
are all true (the style sets are never populated), so that section
agrees with the detailed call exactly when the detailed call finds every
dimension consistent; every style_summary list is empty; and the cells
grid is the detailed grid with every per-cell text-format, alignment,
background and border field nulled while position, content and merge
info are preserved. -/
theorem c6_detail_flag_contract (i : Int) (t : Table) :
    (analyzeTable i t false).tableIndex = (analyzeTable i t true).tableIndex ∧
    (analyzeTable i t false).totalRows = (analyzeTable i t true).totalRows ∧
    (analyzeTable i t false).totalColumns = (analyzeTable i t true).totalColumns ∧
    (analyzeTable i t false).tableStyleName = (analyzeTable i t true).tableStyleName ∧
    (analyzeTable i t false).tableAlignment = (analyzeTable i t true).tableAlignment ∧
    (analyzeTable i t false).tableWidth = (analyzeTable i t true).tableWidth ∧
    (analyzeTable i t false).hasHeaderRow = (analyzeTable i t true).hasHeaderRow ∧
    (analyzeTable i t false).headerRowIndex = (analyzeTable i t true).headerRowIndex ∧
    (analyzeTable i t false).headerCells = (analyzeTable i t true).headerCells ∧
    (analyzeTable i t false).mergedCellsCount = (analyzeTable i t true).mergedCellsCount ∧
    (analyzeTable i t false).mergeRegions = (analyzeTable i t true).mergeRegions ∧
    (analyzeTable i t false).consistentFonts = true ∧
    (analyzeTable i t false).consistentAlignment = true ∧
    (analyzeTable i t false).consistentBorders = true ∧
    (analyzeTable i t false).uniqueFontFamilies = [] ∧
    (analyzeTable i t false).uniqueFontSizes = [] ∧
    (analyzeTable i t false).uniqueColors = [] ∧
    (analyzeTable i t false).uniqueBackgroundColors = [] ∧
    (analyzeTable i t false).cells =
      List.map (List.map stripDetails) ((analyzeTable i t true).cells) := by
  obtain ⟨hmF, hcF⟩ := stepRows_merge false t.rows 0 {}
  obtain ⟨hmT, hcT⟩ := stepRows_merge true t.rows 0 {}
  obtain ⟨s1, s2, s3, s4, s5, s6⟩ := stepRows_false_styles t.rows 0 {}
  unfold analyzeTable
  simp only []
  refine ⟨?_, ?_, ?_, ?_, ?_, ?_, ?_, ?_, ?_, ?_, ?_, ?_, ?_, ?_, ?_, ?_, ?_, ?_, ?_⟩ <;>
    first
    | trivial
    | rw [hcF, hcT]
    | rw [hmF, hmT]
    | (rw [s1]; rfl)
    | (rw [s5]; rfl)
    | (rw [s6]; rfl)
    | exact s1
    | exact s2
    | exact s3
    | exact s4
    | exact stepRows_strip t.rows 0 {} {}

/-- First cell of the C6 counterexample: font Arial. -/
def c6CellA : Cell :=
  { text := "A",
    paragraphs := [{ alignment := none, runs := [{ fontName := some "Arial", fontSizePt := none, fontColorRgb := none, bold := none, italic := none, underline := none }] }],
    element := none }

/-- Second cell of the C6 counterexample: font Courier. -/
def c6CellB : Cell :=
  { text := "B",
    paragraphs := [{ alignment := none, runs := [{ fontName := some "Courier", fontSizePt := none, fontColorRgb := none, bold := none, italic := none, underline := none }] }],
    element := none }

/-- The two-font table of the C6 counterexample. -/
def c6Table : Table :=
  { rows := [[c6CellA, c6CellB]], numColumns := 2, styleName := none }

/-- Counterexample to C6 as stated: on a table with two distinct fonts
the detailed call reports `consistent_fonts = false` while the
non-detailed call reports `true`, so the style_consistency sections of
the two calls differ. -/
theorem c6_counterexample :
    (analyzeTable 0 c6Table false).consistentFonts = true ∧
    (analyzeTable 0 c6Table true).consistentFonts = false := by
  constructor <;> decide

/-! ## C7: idempotence and timestamp placement -/

/-- JSON strings built by `jStr` contain no dictionary keys. -/
theorem jStr_noKey (k : String) (o : Option String) :
    (jStr o).hasKeyDeep k = false := by cases o <;> rfl

/-- JSON numbers built by `jNat` contain no dictionary keys. -/
theorem jNat_noKey (k : String) (o : Option Nat) :
    (jNat o).hasKeyDeep k = false := by cases o <;> rfl

/-- A mapped list contributes no key occurrences when no element does. -/
theorem hasKeyDeepList_map_false {β : Type} (k : String) (f : β → JVal)
    (h : ∀ x : β, (f x).hasKeyDeep k = false) :
    ∀ l : List β, hasKeyDeepList k (l.map f) = false := by
  intro l
  induction l with
  | nil => rfl
  | cons x xs ih => simp [hasKeyDeepList, h x, ih]

/-- `hasKeyDeep` reduction on dictionaries. -/
theorem hasKeyDeep_obj (k : String) (fields : List (String × JVal)) :
    (JVal.obj fields).hasKeyDeep k = hasKeyDeepFields k fields := rfl

/-- `hasKeyDeep` reduction on arrays. -/
theorem hasKeyDeep_arr (k : String) (items : List JVal) :
    (JVal.arr items).hasKeyDeep k = hasKeyDeepList k items := rfl

/-- `hasKeyDeep` on the primitive values. -/
theorem hasKeyDeep_prim (k : String) :
    (JVal.null).hasKeyDeep k = false ∧
    (∀ b, (JVal.bool b).hasKeyDeep k = false) ∧
    (∀ n, (JVal.num n).hasKeyDeep k = false) ∧
    (∀ s, (JVal.str s).hasKeyDeep k = false) :=
  ⟨rfl, fun _ => rfl, fun _ => rfl, fun _ => rfl⟩

/-- `hasKeyDeepFields` reduction on a cons field. -/
theorem hasKeyDeepFields_cons (k s : String) (v : JVal)
    (fs : List (String × JVal)) :
    hasKeyDeepFields k ((s, v) :: fs) =
      (decide (s = k) || v.hasKeyDeep k || hasKeyDeepFields k fs) := rfl

/-- `hasKeyDeepFields` on no fields. -/
theorem hasKeyDeepFields_nil (k : String) :
    hasKeyDeepFields k [] = false := rfl

/-- Border dictionaries carry no timestamp key. -/
theorem borderDict_noTs (b : Option Border) :
    (borderDict b).hasKeyDeep "analysis_timestamp" = false := by
  cases b <;> simp [borderDict, JVal.hasKeyDeep, hasKeyDeepFields, jStr_noKey]

/-- Merge dictionaries carry no timestamp key. -/
theorem mergeDict_noTs (m : MergeInfo) :
    (mergeDict m).hasKeyDeep "analysis_timestamp" = false := by
  simp [mergeDict, JVal.hasKeyDeep, hasKeyDeepFields]

/-- Per-cell dictionaries carry no timestamp key. -/
theorem cellDict_noTs (c : CellAnalysis) :
    (c.toDict).hasKeyDeep "analysis_timestamp" = false := by
  unfold CellAnalysis.toDict
  cases hm : c.mergeInfo <;> simp only [hm] <;> split <;>
    simp [hasKeyDeep_obj, hasKeyDeep_arr, (hasKeyDeep_prim _).1,
      (hasKeyDeep_prim _).2.1, (hasKeyDeep_prim _).2.2.1,
      (hasKeyDeep_prim _).2.2.2, hasKeyDeepFields_cons, hasKeyDeepFields_nil,
      jStr_noKey, jNat_noKey, borderDict_noTs, mergeDict_noTs]

/-- The full per-table report dictionary carries no timestamp key
anywhere. -/
theorem tableDict_noTs (a : TableAnalysis) :
    (a.toDict).hasKeyDeep "analysis_timestamp" = false := by
  have hstr : ∀ cs : List String,
      hasKeyDeepList "analysis_timestamp" (cs.map JVal.str) = false :=
    hasKeyDeepList_map_false _ JVal.str (fun _ => rfl)
  have hnum : hasKeyDeepList "analysis_timestamp"
      (a.uniqueFontSizes.map (fun n : Nat => JVal.num (n : Int))) = false :=
    hasKeyDeepList_map_false _ (fun n : Nat => JVal.num (n : Int))
      (fun _ => rfl) _
  have hmerge : hasKeyDeepList "analysis_timestamp"
      (a.mergeRegions.map mergeDict) = false :=
    hasKeyDeepList_map_false _ _ mergeDict_noTs _
  have hcells : hasKeyDeepList "analysis_timestamp"
      (a.cells.map (fun row => JVal.arr (row.map CellAnalysis.toDict))) = false := by
    refine hasKeyDeepList_map_false _ _ ?_ _
    intro row
    exact hasKeyDeepList_map_false _ _ cellDict_noTs row
  unfold TableAnalysis.toDict
  cases hh : a.headerCells <;>
    simp [hasKeyDeep_obj, hasKeyDeep_arr, (hasKeyDeep_prim _).1,
      (hasKeyDeep_prim _).2.1, (hasKeyDeep_prim _).2.2.1,
      (hasKeyDeep_prim _).2.2.2, hasKeyDeepFields_cons, hasKeyDeepFields_nil,
      jStr_noKey, jNat_noKey, hstr, hnum, hmerge, hcells]

/-- C7.  Running `analyze_table_structure` twice on an unmodified table
yields identical reports (the analysis is a pure function of the table),
the per-table report contains no timestamp key anywhere, and only the
document-level `analyze_all_tables` result carries the analysis
timestamp (under `file_info`), whose value is the only part of that
result that depends on the clock: the `tables` part is identical across
timestamps. -/
theorem c7_idempotent_reports (i : Int) (t : Table) (d : Bool)
    (path : String) (tables : List Table) (ts ts' : String) :
    TableAnalysis.toDict (analyzeTable i t d) =
      TableAnalysis.toDict (analyzeTable i t d) ∧
    ((analyzeTable i t d).toDict).hasKeyDeep "analysis_timestamp" = false ∧
    (((analyzeAllDict path tables d ts).getField "file_info").bind
      (fun v => v.getField "analysis_timestamp")) = some (.str ts) ∧
    (analyzeAllDict path tables d ts).getField "tables" =
      (analyzeAllDict path tables d ts').getField "tables" := by
  refine ⟨rfl, tableDict_noTs _, rfl, rfl⟩

/-! ## C9: bounds validation returns error envelopes -/

/-- A string of positive length is not empty. -/
theorem ne_empty_of_length_pos (s : String) (h : 0 < s.length) : s ≠ "" := by
  intro hc
  subst hc
  simp at h

/-- An invalid table index makes `validate_table_index` raise, with a
non-empty message. -/
theorem validate_table_index_invalid (ti : Int) (m : Nat)
    (h : ti < 0 ∨ (m : Int) ≤ ti) :
    ∃ msg, validate_table_index ti (some m) = .error msg ∧ msg ≠ "" := by
  unfold validate_table_index
  by_cases h1 : ti < 0
  · rw [if_pos h1]
    refine ⟨_, rfl, ?_⟩
    apply ne_empty_of_length_pos
    simp only [String.length_append]
    have hp : 0 < (toString "Table index must be non-negative, got: ").length := by decide
    omega
  · have h2 : (m : Int) ≤ ti := by omega
    rw [if_neg h1]
    simp only []
    rw [if_pos (by omega)]
    refine ⟨_, rfl, ?_⟩
    apply ne_empty_of_length_pos
    simp only [String.length_append]
    have hp : 0 < (toString "Table index ").length := by decide
    omega

/-- A valid table index passes `validate_table_index`. -/
theorem validate_table_index_valid (ti : Int) (m : Nat)
    (h1 : 0 ≤ ti) (h2 : ti < (m : Int)) :
    validate_table_index ti (some m) = .ok () := by
  unfold validate_table_index
  rw [if_neg (by omega)]
  simp only []
  rw [if_neg (by omega)]

/-- An out-of-bounds cell position makes `validate_cell_position` raise,
with a non-empty message. -/
theorem validate_cell_position_invalid (ri ci : Int) (mr mc : Nat)
    (h : ri < 0 ∨ ci < 0 ∨ (mr : Int) ≤ ri ∨ (mc : Int) ≤ ci) :
    ∃ msg, validate_cell_position ri ci (some mr) (some mc) = .error msg ∧ msg ≠ "" := by
  unfold validate_cell_position
  by_cases h1 : ri < 0
  · rw [if_pos h1]
    refine ⟨_, rfl, ?_⟩
    apply ne_empty_of_length_pos
    simp only [String.length_append]
    have hp : 0 < (toString "Row index must be non-negative, got: ").length := by decide
    omega
  · rw [if_neg h1]
    by_cases h2 : ci < 0
    · rw [if_pos h2]
      refine ⟨_, rfl, ?_⟩
      apply ne_empty_of_length_pos
      simp only [String.length_append]
      have hp : 0 < (toString "Column index must be non-negative, got: ").length := by decide
      omega
    · rw [if_neg h2]
      simp only []
      by_cases h3 : (mr : Int) ≤ ri
      · rw [if_pos (by omega)]
        refine ⟨_, rfl, ?_⟩
        apply ne_empty_of_length_pos
        simp only [String.length_append]
        have hp : 0 < (toString "Row index ").length := by decide
        omega
      · have h4 : (mc : Int) ≤ ci := by omega
        rw [if_neg (by omega)]
        rw [if_pos (by omega)]
        refine ⟨_, rfl, ?_⟩
        apply ne_empty_of_length_pos
        simp only [String.length_append]
        have hp : 0 < (toString "Column index ").length := by decide
        omega

/-- C9.  For every `set_cell_value` or `get_cell_value` call on a loaded
document whose table index, row or column is negative or outside the
current bounds, the operation returns an error envelope (status `error`
with a non-empty human-readable message) instead of raising, and on such
an error the document is unchanged: the validations run before any
mutation. -/
theorem c9_bounds_error_envelope (tables : Document)
    (ti ri ci : Int) (v : String)
    (h : ti < 0 ∨ (tables.length : Int) ≤ ti ∨
      (0 ≤ ti ∧ ti < (tables.length : Int) ∧
        (ri < 0 ∨ ci < 0 ∨
          ((tables.getD ti.toNat defaultTable).rows.length : Int) ≤ ri ∨
          ((tables.getD ti.toNat defaultTable).numColumns : Int) ≤ ci))) :
    (set_cell_value tables ti ri ci v).1.status = .error ∧
    (set_cell_value tables ti ri ci v).1.message ≠ "" ∧
    (set_cell_value tables ti ri ci v).2 = tables ∧
    (get_cell_value tables ti ri ci).status = .error := by
  rcases h with h | h | ⟨h1, h2, h3⟩
  · obtain ⟨msg, hv, hne⟩ := validate_table_index_invalid ti tables.length (Or.inl h)
    unfold set_cell_value get_cell_value
    rw [hv]
    exact ⟨rfl, hne, rfl, rfl⟩
  · obtain ⟨msg, hv, hne⟩ := validate_table_index_invalid ti tables.length (Or.inr h)
    unfold set_cell_value get_cell_value
    rw [hv]
    exact ⟨rfl, hne, rfl, rfl⟩
  · have hok := validate_table_index_valid ti tables.length h1 h2
    obtain ⟨msg, hv, hne⟩ := validate_cell_position_invalid ri ci
      (tables.getD ti.toNat defaultTable).rows.length
      (tables.getD ti.toNat defaultTable).numColumns h3
    unfold set_cell_value get_cell_value
    rw [hok]
    simp only []
    rw [hv]
    exact ⟨rfl, hne, rfl, rfl⟩

/-- A concrete 1x1 document for the C9 witness. -/
def c9Doc : Document :=
  [{ rows := [[{ text := "a", paragraphs := [], element := none }]], numColumns := 1, styleName := none }]

/-- Witness for C9: row index 5 on a one-row table. -/
theorem c9_bounds_error_envelope_witness :
    (set_cell_value c9Doc 0 5 0 "x").1.status = .error ∧
    (set_cell_value c9Doc 0 5 0 "x").1.message ≠ "" ∧
    (set_cell_value c9Doc 0 5 0 "x").2 = c9Doc ∧
    (get_cell_value c9Doc 0 5 0).status = .error :=
  c9_bounds_error_envelope c9Doc 0 5 0 "x"
    (Or.inr (Or.inr ⟨by decide, by decide, Or.inr (Or.inr (Or.inl (by decide)))⟩))

/-! ## C10: row deletion counts -/

/-- Descending insertion permutes to a cons. -/
theorem insertDescInt_perm (a : Int) (l : List Int) :
    (insertDescInt a l).Perm (a :: l) := by
  induction l with
  | nil => exact List.Perm.refl _
  | cons b l ih =>
    unfold insertDescInt
    split
    · exact List.Perm.refl _
    · exact (ih.cons b).trans (List.Perm.swap a b l)

/-- The descending sort is a permutation of its input. -/
theorem sortDescInt_perm (l : List Int) : (sortDescInt l).Perm l := by
  induction l with
  | nil => exact List.Perm.refl _
  | cons a l ih =>
    unfold sortDescInt
    exact (insertDescInt_perm a (sortDescInt l)).trans (ih.cons a)

/-- Descending insertion preserves descending sortedness. -/
theorem insertDescInt_sorted (a : Int) {l : List Int}
    (h : l.Pairwise (fun x y => y ≤ x)) :
    (insertDescInt a l).Pairwise (fun x y => y ≤ x) := by
  induction l with
  | nil => simp [insertDescInt]
  | cons b l ih =>
    rw [List.pairwise_cons] at h
    obtain ⟨hb, hl⟩ := h
    unfold insertDescInt
    split <;> rename_i hba
    · rw [List.pairwise_cons]
      refine ⟨?_, by rw [List.pairwise_cons]; exact ⟨hb, hl⟩⟩
      intro y hy
      rcases List.mem_cons.mp hy with rfl | hy
      · exact hba
      · exact le_trans (hb y hy) hba
    · rw [List.pairwise_cons]
      refine ⟨?_, ih hl⟩
      intro y hy
      have hmem : y ∈ a :: l := (insertDescInt_perm a l).mem_iff.mp hy
      rcases List.mem_cons.mp hmem with rfl | hy2
      · omega
      · exact hb y hy2

/-- The descending sort is descending. -/
theorem sortDescInt_sorted (l : List Int) :
    (sortDescInt l).Pairwise (fun x y => y ≤ x) := by
  induction l with
  | nil => simp [sortDescInt]
  | cons a l ih =>
    unfold sortDescInt
    exact insertDescInt_sorted a ih

/-- On distinct inputs the descending sort is strictly descending. -/
theorem sortDescInt_strict (l : List Int) (h : l.Nodup) :
    (sortDescInt l).Pairwise (fun x y => y < x) := by
  have hs := sortDescInt_sorted l
  have hn : (sortDescInt l).Nodup := (sortDescInt_perm l).symm.nodup h
  exact (hs.and hn).imp (fun hab => lt_of_le_of_ne hab.1 (fun he => hab.2 he.symm))

/-- Deleting at a strictly descending list of in-bounds indices removes
exactly one element per index. -/
theorem foldl_eraseIdx_length {β : Type} :
    ∀ (l : List Int) (rows : List β),
      l.Pairwise (fun x y => y < x) →
      (∀ j ∈ l, 0 ≤ j ∧ j.toNat < rows.length) →
      (l.foldl (fun rs i => rs.eraseIdx i.toNat) rows).length =
        rows.length - l.length := by
  intro l
  induction l with
  | nil => intro rows _ _; simp
  | cons i rest ih =>
    intro rows hp hb
    rw [List.foldl_cons]
    obtain ⟨hi0, hilt⟩ := hb i (List.mem_cons_self i rest)
    rw [List.pairwise_cons] at hp
    obtain ⟨hlt, hp2⟩ := hp
    have herase : (rows.eraseIdx i.toNat).length = rows.length - 1 := by
      rw [List.length_eraseIdx]
      rw [if_pos hilt]
    have hb2 : ∀ j ∈ rest, 0 ≤ j ∧ j.toNat < (rows.eraseIdx i.toNat).length := by
      intro j hj
      obtain ⟨hj0, hjlt⟩ := hb j (List.mem_cons_of_mem i hj)
      have hji := hlt j hj
      rw [herase]
      exact ⟨hj0, by omega⟩
    rw [ih (rows.eraseIdx i.toNat) hp2 hb2, herase]
    simp only [List.length_cons]
    omega

/-- All-valid row indices pass the validation loop of
`delete_table_rows`. -/
theorem validateRowIndices_valid (idxs : List Int) (nR nC : Nat)
    (hC : 0 < nC)
    (h : ∀ j ∈ idxs, 0 ≤ j ∧ j < (nR : Int)) :
    validateRowIndices idxs nR nC = .ok () := by
  induction idxs with
  | nil => rfl
  | cons i rest ih =>
    obtain ⟨h0, hlt⟩ := h i (List.mem_cons_self i rest)
    have hv : validate_cell_position i 0 (some nR) (some nC) = .ok () := by
      unfold validate_cell_position
      rw [if_neg (by omega), if_neg (by omega)]
      simp only []
      rw [if_neg (by omega), if_neg (by omega)]
    unfold validateRowIndices
    rw [hv]
    exact ih (fun j hj => h j (List.mem_cons_of_mem i hj))

/-- C10.  For every `delete_table_rows` call with a non-empty list of
in-bounds row indices (on a valid table with at least one column),
duplicate indices are deduplicated and the rows are deleted in
descending index order, so the operation succeeds, the response reports
`rows_deleted` equal to the number of distinct indices, `remaining_rows`
equal to the original row count minus that number, and the table's final
row count equals the original count minus the distinct count. -/
theorem c10_delete_rows_counts (tables : Document) (ti : Int)
    (idxs : List Int) (hne : idxs ≠ [])
    (h1 : 0 ≤ ti) (h2 : ti < (tables.length : Int))
    (hcols : 0 < (tables.getD ti.toNat defaultTable).numColumns)
    (hidx : ∀ j ∈ idxs, 0 ≤ j ∧
      j < (((tables.getD ti.toNat defaultTable).rows.length : Nat) : Int)) :
    (delete_table_rows tables ti idxs).1.status = .success ∧
    ((delete_table_rows tables ti idxs).1.data.bind
      (fun d => d.getField "rows_deleted")) =
        some (.num (idxs.dedup.length : Int)) ∧
    ((delete_table_rows tables ti idxs).1.data.bind
      (fun d => d.getField "remaining_rows")) =
        some (.num (((tables.getD ti.toNat defaultTable).rows.length -
          idxs.dedup.length : Nat) : Int)) ∧
    (((delete_table_rows tables ti idxs).2).getD ti.toNat defaultTable).rows.length =
      (tables.getD ti.toNat defaultTable).rows.length - idxs.dedup.length := by
  have hvt := validate_table_index_valid ti tables.length h1 h2
  have hvr := validateRowIndices_valid idxs
    (tables.getD ti.toNat defaultTable).rows.length
    (tables.getD ti.toNat defaultTable).numColumns hcols hidx
  have hsl : (sortDescInt idxs.dedup).length = idxs.dedup.length :=
    (sortDescInt_perm _).length_eq
  have hnew : (List.foldl (fun rs i => rs.eraseIdx i.toNat)
      (tables.getD ti.toNat defaultTable).rows (sortDescInt idxs.dedup)).length =
      (tables.getD ti.toNat defaultTable).rows.length - idxs.dedup.length := by
    rw [foldl_eraseIdx_length (sortDescInt idxs.dedup)
      (tables.getD ti.toNat defaultTable).rows
      (sortDescInt_strict _ (List.nodup_dedup idxs)) ?_, hsl]
    intro j hj
    have hmem : j ∈ idxs := List.mem_dedup.mp ((sortDescInt_perm _).mem_iff.mp hj)
    obtain ⟨hj0, hjlt⟩ := hidx j hmem
    exact ⟨hj0, by omega⟩
  unfold delete_table_rows
  rw [if_neg (by simpa [List.isEmpty_iff] using hne)]
  rw [hvt]
  simp only []
  rw [hvr]
  simp only []
  refine ⟨rfl, ?_, ?_, ?_⟩
  · simp [successResponse, JVal.getField, List.find?, hsl]
  · simp [successResponse, JVal.getField, List.find?]
    simpa [List.getD] using hnew
  · have hset : (List.set tables ti.toNat
        { tables.getD ti.toNat defaultTable with
          rows := List.foldl (fun rs i => rs.eraseIdx i.toNat)
            (tables.getD ti.toNat defaultTable).rows
            (sortDescInt idxs.dedup) }).getD ti.toNat defaultTable =
        { tables.getD ti.toNat defaultTable with
          rows := List.foldl (fun rs i => rs.eraseIdx i.toNat)
            (tables.getD ti.toNat defaultTable).rows
            (sortDescInt idxs.dedup) } := by
      have hlen : ti.toNat < tables.length := by omega
      simp [List.getD, List.getElem?_set_self, hlen]
    rw [hset]
    exact hnew

/-- A concrete three-row document for the C10 witness. -/
def c10Doc : Document :=
  [{ rows := [[{ text := "r0", paragraphs := [], element := none }], [{ text := "r1", paragraphs := [], element := none }], [{ text := "r2", paragraphs := [], element := none }]], numColumns := 1, styleName := none }]

/-- Witness for C10: indices `[1, 1, 0]` (one duplicate) on a three-row
table delete two rows. -/
theorem c10_delete_rows_counts_witness :
    (delete_table_rows c10Doc 0 [1, 1, 0]).1.status = .success ∧
    ((delete_table_rows c10Doc 0 [1, 1, 0]).1.data.bind
      (fun d => d.getField "rows_deleted")) = some (.num 2) ∧
    ((delete_table_rows c10Doc 0 [1, 1, 0]).1.data.bind
      (fun d => d.getField "remaining_rows")) = some (.num 1) ∧
    (((delete_table_rows c10Doc 0 [1, 1, 0]).2).getD 0 defaultTable).rows.length = 1 := by
  have h := c10_delete_rows_counts c10Doc 0 [1, 1, 0] (by decide)
    (by decide) (by decide) (by decide) (by decide)
  exact h

end DocxMcp
